import Mathlib

/-!
Shallow embedding of the Dynasty Roster Tracker core (src/lib/types.ts and
src/lib/persistentCache.ts) in Lean 4.

The embedded functions mirror the TypeScript source line by line:

* `getPlayerAcquisitionsPure` embeds `getPlayerAcquisitions` (types.ts lines
  364-582).  The network/cache transport is replaced by explicit inputs: the
  fetched league details, the lineage returned by `getLeagueHistory`, and the
  per-season aggregated data (`PlayerAcquisitionData` values that survived the
  null filter).  The cache-hit early return and the cooperative-cancellation
  plumbing are at the transport boundary and are not part of the fusion
  algorithm; claims are stated about runs that complete without cancellation.
* `getLeagueHistoryPure` embeds `getLeagueHistory` (lines 689-738) over a
  deterministic fetch environment `String → Except Unit (Option LeagueMetaResp)`
  (`.error` = the transport threw, `.ok none` = a null response body).
* `getLeagueTransactionsPure` embeds `getLeagueTransactions` (lines 634-669)
  over a per-week fetch environment.
* `saveToCache` / `getFromCache` embed persistentCache.ts; `localStorage` is a
  partial map from full key to the stored `CacheItem` and the JSON
  round-trip of a serializable value is the identity, as in the source.

JavaScript truthiness that the source relies on is made explicit:
`optTruthy` (string-or-null truthiness, where `""` is falsy), `tsTruthy`
(`!record?.timestamp`, where a missing record and a `0` timestamp are both
falsy), and the `|| 12` default for a missing or zero team count.
Epoch-millisecond timestamps are embedded as `Nat`.  Locale date rendering
(`toLocaleDateString`) has no algorithmic content touched by any claim and is
embedded as the decimal rendering of the millisecond value.
-/

/-! ## Small string helpers (character-level, mirroring JS semantics) -/

/-- ASCII lower-casing of one character, as `String.prototype.toLowerCase`
acts on the ASCII identifiers the source feeds it. -/
def charLower (c : Char) : Char :=
  if 'A' ≤ c ∧ c ≤ 'Z' then Char.ofNat (c.toNat + 32) else c

/-- `s.toLowerCase()` on ASCII strings. -/
def toLowerStr (s : String) : String :=
  ⟨s.data.map charLower⟩

/-- Whether `pat` occurs at the head of `s` (character lists). -/
def startsWithList : List Char → List Char → Bool
  | [], _ => true
  | _ :: _, [] => false
  | p :: ps, c :: cs => p = c && startsWithList ps cs

/-- Whether `pat` occurs somewhere in `s` (character lists). -/
def occursIn (pat : List Char) : List Char → Bool
  | [] => startsWithList pat []
  | c :: cs => startsWithList pat (c :: cs) || occursIn pat cs

/-- `s.includes(pat)`. -/
def containsSub (s pat : String) : Bool :=
  occursIn pat.data s.data

/-- One decimal digit, if `c` is a digit. -/
def digitVal (c : Char) : Option Nat :=
  if '0' ≤ c ∧ c ≤ '9' then some (c.toNat - 48) else none

def parseNatCore : List Char → Nat → Option Nat
  | [], acc => some acc
  | c :: rest, acc =>
    match digitVal c with
    | some d => parseNatCore rest (acc * 10 + d)
    | none => none

/-- Numeric value of a decimal string; non-numeric strings go to `0`.  This
stands for `parseInt`/`Number` on the numeric identifier strings the source
sorts and converts (a non-numeric identifier yields `NaN` there, degenerating
the comparator; the claims do not depend on that degenerate case). -/
def parseNat (s : String) : Nat :=
  (parseNatCore s.data 0).getD 0

/-! ## Data model (src/lib/types.ts lines 1-66) -/

structure SleeperRoster where
  roster_id : Nat
  owner_id : String
  players : List String
deriving DecidableEq

structure SleeperDraftPick where
  player_id : String
  picked_by : String
  round : Nat
  pick_no : Nat
deriving DecidableEq

/-- Header of one draft as returned by `getLeagueDrafts`. -/
structure DraftInfo where
  draft_id : String
  declaredType : Option String
  status : Option String
deriving DecidableEq

/-- One element of the `drafts` array built in `getPlayerAcquisitions`:
the draft header together with its fetched picks. -/
structure DraftData where
  draftInfo : DraftInfo
  picks : List SleeperDraftPick
deriving DecidableEq

structure TransactionSettings where
  waiver_bid : Option Nat
  seq : Option Nat
deriving DecidableEq

structure SleeperTransaction where
  transaction_id : String
  ttype : String
  roster_ids : List Nat
  adds : List (String × Nat)
  created : Nat
  settings : Option TransactionSettings
deriving DecidableEq

structure LeagueHistory where
  league_id : String
  previousLeagueId : Option String
  season : String
deriving DecidableEq

structure LeagueSettings where
  settingsType : Option Nat
deriving DecidableEq

structure SleeperLeague where
  league_id : String
  season : String
  total_rosters : Nat
  previous_league_id : Option String
  settings : Option LeagueSettings
deriving DecidableEq

/-- The per-player value stored in the `acquisitions` record:
`{ type: string; details: string; timestamp?: number }`.  The source always
writes a numeric timestamp (initialised to `0`), so the field is a plain
`Nat` whose JS falsiness is `= 0`. -/
structure AcquisitionRecord where
  rtype : String
  details : String
  timestamp : Nat
deriving DecidableEq

/-- `PlayerAcquisitionData` (types.ts lines 355-362) for one historical
season, after the per-season fetches succeeded: the user's roster in that
season (if any), the drafts with their picks, and the season's transactions. -/
structure SeasonData where
  leagueId : String
  season : String
  roster : Option SleeperRoster
  drafts : List DraftData
  transactions : List SleeperTransaction
deriving DecidableEq

/-! ## The acquisitions record as a JS object (string-keyed map) -/

/-- A JS object with string keys and `AcquisitionRecord` values, in key
insertion order.  Built only through `setAcq`, so keys are unique. -/
abbrev AcqMap := List (String × AcquisitionRecord)

/-- Property lookup `acquisitions[k]`. -/
def lookupAcq : AcqMap → String → Option AcquisitionRecord
  | [], _ => none
  | kv :: rest, k => if kv.1 = k then some kv.2 else lookupAcq rest k

/-- `k in acquisitions`. -/
def hasKey : AcqMap → String → Bool
  | [], _ => false
  | kv :: rest, k => kv.1 = k || hasKey rest k

/-- Property assignment `acquisitions[k] = v`: replaces the value in place
when the key exists, otherwise appends the key (JS object key order). -/
def setAcq (m : AcqMap) (k : String) (v : AcquisitionRecord) : AcqMap :=
  if hasKey m k then m.map (fun kv => if kv.1 = k then (k, v) else kv)
  else m ++ [(k, v)]

/-! ## JS truthiness helpers -/

/-- Truthiness of a `string | null | undefined`: `null`, `undefined` and `""`
are falsy. -/
def optTruthy : Option String → Bool
  | none => false
  | some s => s ≠ ""

/-- Truthiness of `acquisitions[p]?.timestamp`: a missing record and a `0`
timestamp are both falsy. -/
def tsTruthy : Option AcquisitionRecord → Bool
  | none => false
  | some r => r.timestamp ≠ 0

/-! ## getPlayerAcquisitions (types.ts lines 364-582) -/

/-- Initialisation loop (lines 376-379): every current roster player starts
as `{ type: "Unknown", details: "", timestamp: 0 }`. -/
def initAcquisitions (roster : SleeperRoster) : AcqMap :=
  roster.players.foldl (fun m p => setAcq m p ⟨"Unknown", "", 0⟩) []

/-- `leagueDetails?.settings?.type`. -/
def settingsType : Option SleeperLeague → Option Nat
  | none => none
  | some l =>
    match l.settings with
    | none => none
    | some s => s.settingsType

/-- `leagueDetails?.total_rosters || 12` (line 516): a missing league and a
zero team count both fall back to 12. -/
def teamsInLeague : Option SleeperLeague → Nat
  | none => 12
  | some ld => if ld.total_rosters = 0 then 12 else ld.total_rosters

/-- `pick.pick_no % teamsInLeague === 0 ? teamsInLeague : pick.pick_no %
teamsInLeague` (line 517). -/
def pickInRound (teams pickNo : Nat) : Nat :=
  if pickNo % teams = 0 then teams else pickNo % teams

/-- `pickInRound < 10 ? `0${pickInRound}` : pickInRound.toString()`
(line 518). -/
def formattedPickNumber (p : Nat) : String :=
  if p < 10 then "0" ++ toString p else toString p

/-- Stable ascending insertion by `Number(draft_id)`, embedding
`drafts.sort((a, b) => Number(a.draftInfo.draft_id) - Number(b.draftInfo.draft_id))`
(lines 452 and 499). -/
def insertDraft (d : DraftData) : List DraftData → List DraftData
  | [] => [d]
  | e :: rest =>
    if parseNat d.draftInfo.draft_id ≤ parseNat e.draftInfo.draft_id then
      d :: e :: rest
    else e :: insertDraft d rest

def sortDraftsById (l : List DraftData) : List DraftData :=
  l.foldr insertDraft []

/-- `draft.draftInfo.type === 'startup' ||
draft.draftInfo.draft_id.toLowerCase().includes('startup') ||
draft.draftInfo.draft_id.toLowerCase().includes('initial')` (line 456). -/
def draftIdLooksStartup (d : DraftInfo) : Bool :=
  d.declaredType == some "startup" ||
    containsSub (toLowerStr d.draft_id) "startup" ||
    containsSub (toLowerStr d.draft_id) "initial"

/-- The designated-startup-draft selection loop (lines 453-464): scan the
sorted drafts; on the first startup-looking draft the user picked in, take it
and stop; otherwise remember the first draft the user picked in (a falsy -
`null` or `""` - remembered identifier may still be replaced). -/
def designatedLoop (userId : String) : List DraftData → Option String → Option String
  | [], acc => acc
  | d :: rest, acc =>
    if d.picks.any (fun p => p.picked_by == userId) then
      if draftIdLooksStartup d.draftInfo then some d.draftInfo.draft_id
      else if !optTruthy acc then designatedLoop userId rest (some d.draftInfo.draft_id)
      else designatedLoop userId rest acc
    else designatedLoop userId rest acc

/-- The fallback scan of lines 465-475: the identifier of the first draft in
the sorted list that the user picked in. -/
def firstParticipatedId (userId : String) : List DraftData → Option String
  | [] => none
  | d :: rest =>
    if d.picks.any (fun p => p.picked_by == userId) then some d.draftInfo.draft_id
    else firstParticipatedId userId rest

/-- The four flags accumulated by the lineage pre-pass (lines 439-442). -/
structure LineageFlags where
  userEarliestSeasonData : Option LeagueHistory
  userDesignatedStartupDraftId : Option String
  draftsExistBeforeUserJoined : Bool
  foundUserInLineage : Bool
deriving DecidableEq

/-- One iteration of the pre-pass loop over `allHistoricalSeasonData`
(lines 444-482). -/
def lineageStep (userId : String) (lhd : List LeagueHistory)
    (fl : LineageFlags) (histData : SeasonData) : LineageFlags :=
  match histData.roster with
  | some _ =>
    if fl.foundUserInLineage then fl
    else
      let earliest := lhd.find? fun lh =>
        lh.league_id == histData.leagueId && lh.season == histData.season
      let sorted := sortDraftsById histData.drafts
      let desig0 := designatedLoop userId sorted none
      let desig :=
        if !optTruthy desig0 && decide (0 < sorted.length) then
          match firstParticipatedId userId sorted with
          | some i => some i
          | none => desig0
        else desig0
      { fl with
          foundUserInLineage := true
          userEarliestSeasonData := earliest
          userDesignatedStartupDraftId := desig }
  | none =>
    if decide (0 < histData.drafts.length) && !fl.foundUserInLineage then
      { fl with draftsExistBeforeUserJoined := true }
    else fl

/-- The whole pre-pass. -/
def computeLineageFlags (userId : String) (lhd : List LeagueHistory)
    (allData : List SeasonData) : LineageFlags :=
  allData.foldl (lineageStep userId lhd) ⟨none, none, false, false⟩

/-- Draft classification (lines 507-512): redraft leagues always classify as
`"Startup Draft"`; otherwise the designated startup draft of the user's
earliest season (with no drafts predating the user in the lineage) is
`"Startup Draft"` and everything else is `"Rookie Draft"`. -/
def draftTypeFor (isRedraft : Bool) (fl : LineageFlags) (meta : LeagueHistory)
    (dInfo : DraftInfo) : String :=
  if isRedraft then "Startup Draft"
  else if !fl.draftsExistBeforeUserJoined
      && (match fl.userEarliestSeasonData with
          | some e => meta.season == e.season
          | none => false)
      && fl.userDesignatedStartupDraftId == some dInfo.draft_id then
    "Startup Draft"
  else "Rookie Draft"

/-- Days from 1970-01-01 to June 1 of year `y` (for `y ≥ 1970`), Gregorian. -/
def leapCount (a : Nat) : Nat := a / 4 - a / 100 + a / 400

def isLeapYear (y : Nat) : Bool :=
  (y % 4 = 0 && y % 100 ≠ 0) || y % 400 = 0

/-- `new Date(parseInt(season), 5, 1).getTime()` (line 523): the epoch
milliseconds of June 1 of the season year (the local-timezone offset of the
host browser is elided; every claim is independent of the concrete value,
which only needs to be a fixed positive number per season). -/
def juneFirstMillis (season : String) : Nat :=
  let y := parseNat season
  (365 * (y - 1970) + (leapCount (y - 1) - leapCount 1969) + 151 +
      (if isLeapYear y then 1 else 0)) * 86400000

/-- The record a draft pick writes (lines 516-523). -/
def mkDraftRecord (draftType : String) (meta : LeagueHistory) (teams : Nat)
    (pick : SleeperDraftPick) : AcquisitionRecord :=
  let pir := pickInRound teams pick.pick_no
  let fmt := formattedPickNumber pir
  let details :=
    if draftType = "Startup Draft" then toString pick.round ++ "." ++ fmt
    else meta.season ++ " " ++ toString pick.round ++ "." ++ fmt
  ⟨draftType, details, juneFirstMillis meta.season⟩

/-- Processing of a single user draft pick (lines 514-524), on the state
`(acquisitions, userStartupDraftPlayerCount)`.  The guard is
`pick.player_id && (acquisitions[p]?.type === "Unknown" ||
!acquisitions[p]?.timestamp)`; note that for a player id absent from the
record the optional chain yields `undefined`, so the second disjunct is true
and a NEW key is created. -/
def applyDraftPickStep (draftType : String) (meta : LeagueHistory) (teams : Nat)
    (st : AcqMap × Nat) (pick : SleeperDraftPick) : AcqMap × Nat :=
  if pick.player_id ≠ "" ∧
      ((lookupAcq st.1 pick.player_id).map (fun r => r.rtype) = some "Unknown" ∨
        tsTruthy (lookupAcq st.1 pick.player_id) = false) then
    let cnt := if draftType = "Startup Draft" then st.2 + 1 else st.2
    (setAcq st.1 pick.player_id (mkDraftRecord draftType meta teams pick), cnt)
  else st

/-- Processing of one draft (lines 500-526). -/
def applyDraft (isRedraft : Bool) (fl : LineageFlags) (userId : String)
    (meta : LeagueHistory) (teams : Nat) (st : AcqMap × Nat)
    (dd : DraftData) : AcqMap × Nat :=
  let userPicks := dd.picks.filter (fun p => p.picked_by == userId)
  if userPicks.length = 0 then st
  else
    let dt := draftTypeFor isRedraft fl meta dd.draftInfo
    userPicks.foldl (applyDraftPickStep dt meta teams) st

/-- `acqType` of a transaction (lines 539-549). -/
def transactionRecordType (t : SleeperTransaction) : String :=
  if t.ttype = "trade" then "Trade"
  else if t.ttype = "waiver" then "Waiver Wire"
  else if t.ttype = "free_agent" then "Free Agency"
  else "Unknown Transaction"

/-- Stand-in for `date.toLocaleDateString('en-US', ...)`: locale rendering
has no content any claim touches, so the millisecond value is rendered in
decimal. -/
def localeDateStr (ms : Nat) : String := toString ms

/-- The detail string of a transaction record (lines 537-548): a waiver with
a truthy (non-zero) FAAB bid reports the bid, everything else reports the
acquisition date. -/
def transactionDetails (t : SleeperTransaction) : String :=
  let base := "Acquired on " ++ localeDateStr t.created
  if t.ttype = "waiver" then
    match t.settings with
    | some s =>
      match s.waiver_bid with
      | some b => if b ≠ 0 then "Paid " ++ toString b ++ " FAAB on " ++ localeDateStr t.created else base
      | none => base
    | none => base
  else base

/-- The record a transaction writes (line 550). -/
def mkTransactionRecord (t : SleeperTransaction) : AcquisitionRecord :=
  ⟨transactionRecordType t, transactionDetails t, t.created⟩

/-- Processing of one `playerId in transaction.adds` (lines 533-553): only
players on the CURRENT roster are touched; the record is overwritten when it
is missing, still `"Unknown"`, or when the transaction time is truthy and
either the current timestamp is falsy or the transaction is strictly later. -/
def applyTransactionAdd (rosterPlayers : List String) (t : SleeperTransaction)
    (m : AcqMap) (playerId : String) : AcqMap :=
  if playerId ∈ rosterPlayers then
    match lookupAcq m playerId with
    | none => setAcq m playerId (mkTransactionRecord t)
    | some cur =>
      if cur.rtype = "Unknown" ∨
          (t.created ≠ 0 ∧ (cur.timestamp = 0 ∨ cur.timestamp < t.created)) then
        setAcq m playerId (mkTransactionRecord t)
      else m
  else m

/-- Processing of one transaction (lines 527-555): skipped unless the user's
roster id for that season appears in `transaction.roster_ids`.  `adds` keys
are visited in list order (JS visits integer-like keys in ascending order;
distinct keys update distinct map entries, so no claim depends on the
order). -/
def applyTransaction (rosterPlayers : List String) (userRosterId : Nat)
    (m : AcqMap) (t : SleeperTransaction) : AcqMap :=
  if userRosterId ∈ t.roster_ids then
    t.adds.foldl (fun m kv => applyTransactionAdd rosterPlayers t m kv.1) m
  else m

/-- Processing of one historical season (lines 485-556): skip seasons where
the user had no roster or whose lineage metadata is missing; then apply all
drafts (sorted by numeric draft id) and then all transactions. -/
def processSeason (isRedraft : Bool) (fl : LineageFlags) (userId : String)
    (roster : SleeperRoster) (ld : Option SleeperLeague)
    (lhd : List LeagueHistory) (st : AcqMap × Nat) (hd : SeasonData) :
    AcqMap × Nat :=
  match hd.roster with
  | none => st
  | some userRosterThisSeason =>
    match lhd.find? (fun lh => lh.league_id == hd.leagueId && lh.season == hd.season) with
    | none => st
    | some meta =>
      let sorted := sortDraftsById hd.drafts
      let teams := teamsInLeague ld
      let st1 := sorted.foldl (applyDraft isRedraft fl userId meta teams) st
      let m2 := hd.transactions.foldl
        (applyTransaction roster.players userRosterThisSeason.roster_id) st1.1
      (m2, st1.2)

/-- The season loop (lines 484-556), threading the acquisitions map and the
startup-pick count. -/
def fuseAllSeasons (isRedraft : Bool) (fl : LineageFlags) (userId : String)
    (roster : SleeperRoster) (ld : Option SleeperLeague)
    (lhd : List LeagueHistory) (allData : List SeasonData)
    (init : AcqMap) : AcqMap × Nat :=
  allData.foldl (processSeason isRedraft fl userId roster ld lhd) (init, 0)

/-- The guard of the fallback resolver (line 558). -/
def fallbackCondition (fl : LineageFlags) (startupCount : Nat) : Bool :=
  fl.draftsExistBeforeUserJoined ||
    (fl.foundUserInLineage && startupCount == 0 &&
      optTruthy fl.userDesignatedStartupDraftId) ||
    (fl.foundUserInLineage && !optTruthy fl.userDesignatedStartupDraftId) ||
    !fl.foundUserInLineage

/-- The record the fallback resolver writes (line 561). -/
def previousOwnerRecord : AcquisitionRecord :=
  ⟨"Previous Owner", "On roster when user took over team", 0⟩

/-- The fallback loop (lines 559-563): every still-`"Unknown"` record becomes
`"Previous Owner"` in place. -/
def applyFallback (m : AcqMap) : AcqMap :=
  m.map fun kv => if kv.2.rtype = "Unknown" then (kv.1, previousOwnerRecord) else kv

/-- The fusion pipeline of `getPlayerAcquisitions` (lines 364-582) on its
successfully fetched inputs: initialise every roster player to `"Unknown"`,
return immediately on an empty lineage, otherwise run the pre-pass, the
season fusion loop, and (conditionally) the fallback resolver. -/
def getPlayerAcquisitionsPure (leagueDetails : Option SleeperLeague)
    (leagueHistoryData : List LeagueHistory)
    (allHistoricalSeasonData : List SeasonData)
    (userId : String) (roster : SleeperRoster) : AcqMap :=
  let acquisitions := initAcquisitions roster
  if leagueHistoryData.length = 0 then acquisitions
  else
    let isRedraft := settingsType leagueDetails == some 0
    let fl := computeLineageFlags userId leagueHistoryData allHistoricalSeasonData
    let st := fuseAllSeasons isRedraft fl userId roster leagueDetails
      leagueHistoryData allHistoricalSeasonData acquisitions
    if fallbackCondition fl st.2 then applyFallback st.1 else st.1

/-! ## getLeagueHistory (types.ts lines 689-738) -/

/-- The league metadata the walker reads from one response body. -/
structure LeagueMetaResp where
  season : String
  previous_league_id : Option String
deriving DecidableEq

/-- The `while` loop of `getLeagueHistory` (lines 695-716), pushing nodes in
newest-first order.  The second component records whether the transport threw
(entering the `catch` block).  The loop runs while the current id is truthy,
fewer than 10 nodes are collected, and the id was not visited; a null
response body breaks out of the loop. -/
def historyLoop (fetch : String → Except Unit (Option LeagueMetaResp))
    (cur : Option String) (visited : List String) (hist : List LeagueHistory) :
    List LeagueHistory × Bool :=
  match cur with
  | none => (hist, false)
  | some c =>
    if h : c ≠ "" ∧ hist.length < 10 ∧ c ∉ visited then
      match fetch c with
      | Except.error _ => (hist, true)
      | Except.ok none => (hist, false)
      | Except.ok (some d) =>
        historyLoop fetch d.previous_league_id (c :: visited)
          (hist ++ [⟨c, d.previous_league_id, d.season⟩])
    else (hist, false)
termination_by 10 - hist.length
decreasing_by simp; omega

/-- `getLeagueHistory` (lines 689-738).  The collected chain is reversed
before return (oldest first).  When the transport threw: with an empty chain
the error necessarily happened on the very first fetch (every earlier
iteration would have pushed a node, and a revisited start is stopped by the
visited-set before fetching), so the catch block retries that single fetch
once and otherwise degrades to a single node with an empty season label.
The cancellation path (which also reverses and returns) is excluded by the
deterministic environment. -/
def getLeagueHistoryPure (fetch : String → Except Unit (Option LeagueMetaResp))
    (leagueId : String) : List LeagueHistory :=
  let r := historyLoop fetch (some leagueId) [] []
  if r.2 then
    if r.1.length = 0 then
      match fetch leagueId with
      | Except.ok (some d) => [⟨leagueId, d.previous_league_id, d.season⟩]
      | _ => [⟨leagueId, none, ""⟩]
    else r.1.reverse
  else r.1.reverse

/-! ## getLeagueTransactions (types.ts lines 634-669) -/

/-- The week loop of `getLeagueTransactions` (lines 645-656): weeks are
queried in order starting at 1; a non-empty weekly list is appended; an empty
list past week 4 breaks.  `fuel` counts the remaining iterations (the source
bound `currentWeek <= 18` corresponds to starting with fuel 18 at week 1,
and the redundant `18 <` guard mirrors the loop condition). -/
def transactionsLoop (fetchWeek : Nat → List SleeperTransaction) :
    Nat → Nat → List SleeperTransaction → List SleeperTransaction
  | 0, _, acc => acc
  | fuel + 1, w, acc =>
    if 18 < w then acc
    else
      let weekly := fetchWeek w
      if 0 < weekly.length then transactionsLoop fetchWeek fuel (w + 1) (acc ++ weekly)
      else if 4 < w then acc
      else transactionsLoop fetchWeek fuel (w + 1) acc

/-- `getLeagueTransactions` on a deterministic per-week environment (the
session-cache hit and the error/cancellation returns are transport
boundary). -/
def getLeagueTransactionsPure (fetchWeek : Nat → List SleeperTransaction) :
    List SleeperTransaction :=
  transactionsLoop fetchWeek 18 1 []

/-- Concatenation of weekly lists. -/
def concatLists : List (List SleeperTransaction) → List SleeperTransaction
  | [] => []
  | x :: xs => x ++ concatLists xs

/-- `[w, w+1, ..., w+n-1]`. -/
def weeksFrom (w : Nat) : Nat → List Nat
  | 0 => []
  | n + 1 => w :: weeksFrom (w + 1) n

/-! ## persistentCache.ts -/

/-- One stored entry: `{ timestamp, data, duration }` (persistentCache.ts
lines 4-8).  The JSON round-trip of a serializable value is the identity, so
the store holds the typed item directly. -/
structure CacheItem (V : Type) where
  timestamp : Nat
  data : V
  duration : Nat

/-- `localStorage` as a partial map from full key to stored item. -/
def Store (V : Type) : Type := String → Option (CacheItem V)

/-- The `CACHE_PREFIX` constant prepended to every key. -/
def cacheKeyBase : String := "sleeperHistoryCache_"

/-- `saveToCache` (lines 27-43): a no-op when localStorage is unavailable,
otherwise stores `{ timestamp: Date.now(), data, duration }` under the
prefixed key. -/
def saveToCache {V : Type} (avail : Bool) (store : Store V) (now : Nat)
    (key : String) (data : V) (duration : Nat) : Store V :=
  if avail then
    fun k => if k = cacheKeyBase ++ key then some ⟨now, data, duration⟩ else store k
  else store

/-- `getFromCache` (lines 50-74): `null` when localStorage is unavailable or
the key is absent; the stored data when `Date.now() - timestamp < duration`,
else `null` (the source also evicts the expired entry, which does not affect
the returned value). -/
def getFromCache {V : Type} (avail : Bool) (store : Store V) (now : Nat)
    (key : String) : Option V :=
  if avail then
    match store (cacheKeyBase ++ key) with
    | none => none
    | some item => if now - item.timestamp < item.duration then some item.data else none
  else none

/-! # Theorems -/

/-! ## Generic fold invariance -/

theorem foldl_rec {α β : Type} (P : α → Prop) (f : α → β → α) :
    ∀ (l : List β) (init : α), P init → (∀ a b, b ∈ l → P a → P (f a b)) →
      P (l.foldl f init) := by
  intro l
  induction l with
  | nil => intro init h _; exact h
  | cons x xs ih =>
    intro init h hstep
    exact ih (f init x) (hstep init x (by simp) h)
      (fun a b hb ha => hstep a b (by simp [hb]) ha)

/-! ## AcqMap lemmas -/

theorem lookupAcq_map_set_ne (m : AcqMap) (k : String) (v : AcquisitionRecord)
    (k' : String) (hne : k' ≠ k) :
    lookupAcq (m.map fun kv => if kv.1 = k then (k, v) else kv) k' = lookupAcq m k' := by
  induction m with
  | nil => rfl
  | cons a m ih =>
    by_cases ha : a.1 = k
    · simp only [List.map_cons, if_pos ha, lookupAcq]
      rw [if_neg (fun h => hne h.symm), if_neg (by rw [ha]; exact fun h => hne h.symm)]
      exact ih
    · simp only [List.map_cons, if_neg ha, lookupAcq]
      by_cases hk' : a.1 = k'
      · rw [if_pos hk', if_pos hk']
      · rw [if_neg hk', if_neg hk']
        exact ih

theorem lookupAcq_map_set_eq (m : AcqMap) (k : String) (v : AcquisitionRecord)
    (hk : hasKey m k = true) :
    lookupAcq (m.map fun kv => if kv.1 = k then (k, v) else kv) k = some v := by
  induction m with
  | nil => simp [hasKey] at hk
  | cons a m ih =>
    by_cases ha : a.1 = k
    · simp [lookupAcq, ha]
    · simp only [List.map_cons, if_neg ha, lookupAcq, if_neg ha]
      simp only [hasKey, ha] at hk
      simp at hk
      exact ih hk

theorem lookupAcq_append_new (m : AcqMap) (k : String) (v : AcquisitionRecord)
    (k' : String) (hk : hasKey m k = false) :
    lookupAcq (m ++ [(k, v)]) k' = if k' = k then some v else lookupAcq m k' := by
  induction m with
  | nil =>
    simp only [List.nil_append, lookupAcq]
    by_cases h : k' = k
    · rw [if_pos h.symm, if_pos h]
    · rw [if_neg (fun hh => h hh.symm), if_neg h]
  | cons a m ih =>
    simp only [hasKey, Bool.or_eq_false_iff] at hk
    obtain ⟨ha, hm⟩ := hk
    have ha2 : a.1 ≠ k := by simpa using ha
    simp only [List.cons_append, lookupAcq]
    by_cases hk' : a.1 = k'
    · have hkk : k' ≠ k := by rw [← hk']; exact ha2
      rw [if_pos hk', if_pos hk', if_neg hkk]
    · rw [if_neg hk', if_neg hk']
      exact ih hm

theorem lookupAcq_setAcq (m : AcqMap) (k : String) (v : AcquisitionRecord) (k' : String) :
    lookupAcq (setAcq m k v) k' = if k' = k then some v else lookupAcq m k' := by
  unfold setAcq
  by_cases hk : hasKey m k
  · rw [if_pos hk]
    by_cases h : k' = k
    · subst h; rw [if_pos rfl]; exact lookupAcq_map_set_eq m k' v hk
    · rw [if_neg h]; exact lookupAcq_map_set_ne m k v k' h
  · rw [if_neg hk]
    exact lookupAcq_append_new m k v k' (by simpa using hk)


theorem hasKey_iff_mem (m : AcqMap) (k : String) :
    hasKey m k = true ↔ k ∈ m.map Prod.fst := by
  induction m with
  | nil => simp [hasKey]
  | cons a m ih =>
    simp only [hasKey, List.map_cons, List.mem_cons, Bool.or_eq_true, decide_eq_true_eq, ih]
    constructor
    · rintro (h | h)
      · exact Or.inl h.symm
      · exact Or.inr h
    · rintro (h | h)
      · exact Or.inl h.symm
      · exact Or.inr h

theorem lookupAcq_eq_none_iff (m : AcqMap) (k : String) :
    lookupAcq m k = none ↔ hasKey m k = false := by
  induction m with
  | nil => simp [lookupAcq, hasKey]
  | cons a m ih =>
    simp only [lookupAcq, hasKey, Bool.or_eq_false_iff]
    by_cases h : a.1 = k
    · simp [h]
    · simp [h, ih]

theorem keys_setAcq_of_hasKey (m : AcqMap) (k : String) (v : AcquisitionRecord)
    (hk : hasKey m k = true) :
    (setAcq m k v).map Prod.fst = m.map Prod.fst := by
  unfold setAcq
  rw [if_pos hk, List.map_map]
  apply List.map_congr_left
  intro kv _
  by_cases h : kv.1 = k
  · simp [h]
  · simp [h]

theorem keys_setAcq_of_not (m : AcqMap) (k : String) (v : AcquisitionRecord)
    (hk : hasKey m k = false) :
    (setAcq m k v).map Prod.fst = m.map Prod.fst ++ [k] := by
  unfold setAcq
  rw [if_neg (by simp [hk]), List.map_append]
  rfl

theorem hasKey_setAcq (m : AcqMap) (k : String) (v : AcquisitionRecord) (k' : String) :
    hasKey (setAcq m k v) k' = true ↔ (k' = k ∨ hasKey m k' = true) := by
  rw [hasKey_iff_mem, hasKey_iff_mem]
  by_cases hk : hasKey m k
  · rw [keys_setAcq_of_hasKey m k v hk]
    constructor
    · exact fun h => Or.inr h
    · rintro (h | h)
      · subst h; exact (hasKey_iff_mem m k').1 hk
      · exact h
  · rw [keys_setAcq_of_not m k v (by simpa using hk)]
    simp [or_comm]

theorem keysNodup_setAcq (m : AcqMap) (k : String) (v : AcquisitionRecord)
    (hm : (m.map Prod.fst).Nodup) : ((setAcq m k v).map Prod.fst).Nodup := by
  by_cases hk : hasKey m k
  · rw [keys_setAcq_of_hasKey m k v hk]; exact hm
  · rw [keys_setAcq_of_not m k v (by simpa using hk)]
    have hnk : k ∉ m.map Prod.fst := by
      intro hmem
      exact hk ((hasKey_iff_mem m k).2 hmem)
    simp [List.nodup_append, hm, hnk]

theorem keys_applyFallback (m : AcqMap) :
    (applyFallback m).map Prod.fst = m.map Prod.fst := by
  unfold applyFallback
  rw [List.map_map]
  apply List.map_congr_left
  intro kv _
  by_cases h : kv.2.rtype = "Unknown"
  · simp [h]
  · simp [h]

theorem lookupAcq_applyFallback (m : AcqMap) (k : String) :
    lookupAcq (applyFallback m) k =
      (lookupAcq m k).map fun r => if r.rtype = "Unknown" then previousOwnerRecord else r := by
  induction m with
  | nil => rfl
  | cons a m ih =>
    unfold applyFallback at ih ⊢
    simp only [List.map_cons, lookupAcq]
    by_cases ha : a.2.rtype = "Unknown"
    · rw [if_pos ha]
      by_cases hk : a.1 = k
      · simp [lookupAcq, hk, ha]
      · simp only [lookupAcq, if_neg hk]
        exact ih
    · rw [if_neg ha]
      by_cases hk : a.1 = k
      · simp [lookupAcq, hk, ha]
      · simp only [lookupAcq, if_neg hk]
        exact ih

theorem lookupAcq_init_fold (u0 : AcquisitionRecord) :
    ∀ (ps : List String) (m : AcqMap) (k : String),
      lookupAcq (ps.foldl (fun m p => setAcq m p u0) m) k =
        if k ∈ ps then some u0 else lookupAcq m k := by
  intro ps
  induction ps with
  | nil => intro m k; simp
  | cons p ps ih =>
    intro m k
    simp only [List.foldl_cons, ih, lookupAcq_setAcq]
    by_cases hps : k ∈ ps
    · simp [hps]
    · by_cases hp : k = p
      · simp [hps, hp]
      · simp [hps, hp]

theorem lookupAcq_init (roster : SleeperRoster) (k : String) :
    lookupAcq (initAcquisitions roster) k =
      if k ∈ roster.players then some ⟨"Unknown", "", 0⟩ else none := by
  unfold initAcquisitions
  rw [lookupAcq_init_fold]
  rfl

/-! ## Claim C10: persistent cache round trip -/

/-- C10: with localStorage available, immediately after `saveToCache(key, value,
d)` a `getFromCache(key)` performed less than `d` milliseconds later returns the
stored value, a `getFromCache(key)` performed at or after `d` milliseconds
returns null, and a never-stored key returns null. -/
theorem claim_c10_cache_roundtrip {V : Type} (store : Store V) (now later : Nat)
    (key : String) (v : V) (d : Nat) (hd : 0 < d) (hnl : now ≤ later) :
    (later - now < d →
      getFromCache true (saveToCache true store now key v d) later key = some v) ∧
    (d ≤ later - now →
      getFromCache true (saveToCache true store now key v d) later key = none) ∧
    (∀ k : String, store (cacheKeyBase ++ k) = none →
      getFromCache true store later k = none) := by
  refine ⟨?_, ?_, ?_⟩
  · intro h
    simp [getFromCache, saveToCache, h]
  · intro h
    simp only [getFromCache, saveToCache, if_pos rfl, if_true]
    rw [if_neg (by omega)]
  · intro k hk
    simp [getFromCache, hk]

/-- Witness for C10 at a concrete store, key, value and times. -/
theorem claim_c10_witness :
    (0 : Nat) < 10 ∧ (0 : Nat) ≤ 5 ∧ (5 : Nat) - 0 < 10 ∧
    getFromCache true
      (saveToCache true (fun _ => (none : Option (CacheItem Nat))) 0 "k" 42 10) 5 "k"
      = some 42 :=
  ⟨by decide, by decide, by decide,
    (claim_c10_cache_roundtrip (fun _ => none) 0 5 "k" 42 10 (by decide)
      (by decide)).1 (by decide)⟩

/-! ## Claim C5: pick-slot arithmetic and formatting -/

/-- C5: for a 1-based overall pick number `n` and a positive team count `t`,
the within-round slot computed by the fuser (`n % t == 0 ? t : n % t`) equals
`((n - 1) mod t) + 1`; with `t = 12`, pick 24 formats as slot "12" (startup
detail "2.12") and pick 25 as slot "01" (startup detail "3.01"). -/
theorem claim_c5_pick_slot :
    (∀ n t : Nat, 1 ≤ n → 1 ≤ t → pickInRound t n = (n - 1) % t + 1) ∧
    formattedPickNumber (pickInRound 12 24) = "12" ∧
    formattedPickNumber (pickInRound 12 25) = "01" ∧
    (mkDraftRecord "Startup Draft" ⟨"L", none, "2023"⟩ 12 ⟨"X", "u", 2, 24⟩).details = "2.12" ∧
    (mkDraftRecord "Startup Draft" ⟨"L", none, "2023"⟩ 12 ⟨"X", "u", 3, 25⟩).details = "3.01" := by
  refine ⟨?_, by decide, by decide, by decide, by decide⟩
  intro n t hn ht
  obtain ⟨a, rfl⟩ : ∃ a, n = a + 1 := ⟨n - 1, by omega⟩
  simp only [Nat.add_sub_cancel]
  rcases eq_or_lt_of_le ht with h1 | h1
  · simp [pickInRound, ← h1, Nat.mod_one]
  · have h2 : (a + 1) % t = (a % t + 1) % t := by
      rw [Nat.add_mod, Nat.mod_eq_of_lt h1]
    by_cases hcase : a % t + 1 = t
    · unfold pickInRound
      rw [h2, hcase, Nat.mod_self, if_pos rfl]
    · have hlt : a % t + 1 < t := by
        have := Nat.mod_lt a (by omega : 0 < t)
        omega
      unfold pickInRound
      rw [h2, Nat.mod_eq_of_lt hlt, if_neg (by omega)]

/-- Witness for C5's quantified slot formula at pick 24 in a 12-team league. -/
theorem claim_c5_witness :
    1 ≤ 24 ∧ 1 ≤ 12 ∧ pickInRound 12 24 = (24 - 1) % 12 + 1 :=
  ⟨by decide, by decide, claim_c5_pick_slot.1 24 12 (by decide) (by decide)⟩

/-! ## Claim C3: transaction overwrite rule -/

/-- C3: during fusion, a transaction add for a player on the current roster
replaces the player's record exactly when the current record's kind is
`"Unknown"` or the transaction's `created` is strictly greater than the
record's timestamp; otherwise the whole map is left unchanged.  (The source's
guard `transactionTime && (!timestamp || transactionTime > timestamp)` is
equivalent over natural timestamps.) -/
theorem claim_c3_transaction_overwrite (rp : List String) (t : SleeperTransaction)
    (m : AcqMap) (p : String) (r : AcquisitionRecord)
    (hp : p ∈ rp) (hr : lookupAcq m p = some r) :
    applyTransactionAdd rp t m p =
      if r.rtype = "Unknown" ∨ r.timestamp < t.created
      then setAcq m p (mkTransactionRecord t) else m := by
  unfold applyTransactionAdd
  rw [if_pos hp, hr]
  have hiff : (r.rtype = "Unknown" ∨ (t.created ≠ 0 ∧ (r.timestamp = 0 ∨ r.timestamp < t.created))) ↔
      (r.rtype = "Unknown" ∨ r.timestamp < t.created) := by
    constructor
    · rintro (h | ⟨h1, h2⟩)
      · exact Or.inl h
      · right; omega
    · rintro (h | h)
      · exact Or.inl h
      · right; exact ⟨by omega, Or.inr h⟩
  simp only [hiff]

def c3wT : SleeperTransaction := ⟨"t1", "trade", [1], [("p", 1)], 100, none⟩

def c3wM : AcqMap := [("p", ⟨"Unknown", "", 0⟩)]

/-- Witness for C3 at a concrete transaction and record. -/
theorem claim_c3_witness :
    "p" ∈ ["p"] ∧ lookupAcq c3wM "p" = some ⟨"Unknown", "", 0⟩ ∧
    applyTransactionAdd ["p"] c3wT c3wM "p" =
      if (AcquisitionRecord.mk "Unknown" "" 0).rtype = "Unknown" ∨
          (AcquisitionRecord.mk "Unknown" "" 0).timestamp < c3wT.created
      then setAcq c3wM "p" (mkTransactionRecord c3wT) else c3wM :=
  ⟨by decide, by decide,
    claim_c3_transaction_overwrite ["p"] c3wT c3wM "p" ⟨"Unknown", "", 0⟩
      (by decide) (by decide)⟩

/-! ## Claim C9: weekly transaction loop -/

theorem transactionsLoop_all_nonempty (f : Nat → List SleeperTransaction)
    (h5 : ∀ u, 5 ≤ u → u ≤ 18 → f u ≠ []) :
    ∀ (fuel w : Nat) (acc : List SleeperTransaction), fuel + w = 19 →
      transactionsLoop f fuel w acc = acc ++ concatLists ((weeksFrom w fuel).map f) := by
  intro fuel
  induction fuel with
  | zero =>
    intro w acc hw
    simp [transactionsLoop, weeksFrom, concatLists]
  | succ fuel ih =>
    intro w acc hw
    have hw18 : ¬18 < w := by omega
    rw [transactionsLoop, if_neg hw18]
    simp only [weeksFrom, List.map_cons, concatLists]
    by_cases hne : 0 < (f w).length
    · rw [if_pos hne, ih (w + 1) (acc ++ f w) (by omega)]
      simp [List.append_assoc]
    · rw [if_neg hne]
      have hfw : f w = [] := by
        cases hfw : f w with
        | nil => rfl
        | cons x xs => rw [hfw] at hne; simp at hne
      have hw4 : ¬4 < w := by
        intro hgt
        exact h5 w (by omega) (by omega) hfw
      rw [if_neg hw4, ih (w + 1) acc (by omega), hfw]
      simp

theorem transactionsLoop_stops (f : Nat → List SleeperTransaction) (w0 : Nat)
    (h1 : 5 ≤ w0) (h2 : w0 ≤ 18) (h3 : f w0 = [])
    (h4 : ∀ u, 5 ≤ u → u < w0 → f u ≠ []) :
    ∀ (fuel w : Nat) (acc : List SleeperTransaction), fuel + w = 19 → w ≤ w0 →
      transactionsLoop f fuel w acc = acc ++ concatLists ((weeksFrom w (w0 + 1 - w)).map f) := by
  intro fuel
  induction fuel with
  | zero =>
    intro w acc hw hle
    omega
  | succ fuel ih =>
    intro w acc hw hle
    have hw18 : ¬18 < w := by omega
    rw [transactionsLoop, if_neg hw18]
    by_cases hstop : w = w0
    · subst hstop
      rw [h3]
      simp only [List.length_nil, lt_self_iff_false, if_false]
      rw [if_pos (by omega : 4 < w)]
      have hone : w + 1 - w = 1 := by omega
      rw [hone]
      simp [weeksFrom, concatLists, h3]
    · have hlt : w < w0 := by omega
      have hsucc : w0 + 1 - w = (w0 - w) + 1 := by omega
      rw [hsucc]
      simp only [weeksFrom, List.map_cons, concatLists]
      by_cases hne : 0 < (f w).length
      · rw [if_pos hne, ih (w + 1) (acc ++ f w) (by omega) (by omega)]
        have : w0 + 1 - (w + 1) = w0 - w := by omega
        rw [this]
        simp [List.append_assoc]
      · rw [if_neg hne]
        have hfw : f w = [] := by
          cases hfw : f w with
          | nil => rfl
          | cons x xs => rw [hfw] at hne; simp at hne
        have hw4 : ¬4 < w := by
          intro hgt
          exact h4 w (by omega) hlt hfw
        rw [if_neg hw4, ih (w + 1) acc (by omega) (by omega), hfw]
        have : w0 + 1 - (w + 1) = w0 - w := by omega
        rw [this]
        simp

/-- C9 (amended): the weekly loop queries weeks 1..18 in order; if no week in
5..18 comes back empty the result is the concatenation of all 18 weekly
lists, and otherwise the loop terminates at the FIRST week past week 4 whose
list is empty (not after several consecutive empty weeks), returning the
concatenation of the weekly lists fetched up to and including that week. -/
theorem claim_c9_weekly_loop (f : Nat → List SleeperTransaction) :
    ((∀ u, 5 ≤ u → u ≤ 18 → f u ≠ []) →
      getLeagueTransactionsPure f = concatLists ((weeksFrom 1 18).map f)) ∧
    (∀ w0, 5 ≤ w0 → w0 ≤ 18 → f w0 = [] → (∀ u, 5 ≤ u → u < w0 → f u ≠ []) →
      getLeagueTransactionsPure f = concatLists ((weeksFrom 1 w0).map f)) := by
  constructor
  · intro h5
    unfold getLeagueTransactionsPure
    rw [transactionsLoop_all_nonempty f h5 18 1 [] (by omega)]
    simp
  · intro w0 h1 h2 h3 h4
    unfold getLeagueTransactionsPure
    rw [transactionsLoop_stops f w0 h1 h2 h3 h4 18 1 [] (by omega) (by omega)]
    have : w0 + 1 - 1 = w0 := by omega
    rw [this]
    simp

def c9tA : SleeperTransaction := ⟨"a", "free_agent", [1], [("p", 1)], 100, none⟩

def c9tB : SleeperTransaction := ⟨"b", "trade", [1], [("q", 1)], 200, none⟩

/-- The environment refuting C9 as stated: weeks 1-4 and week 6 have
transactions, week 5 alone is empty. -/
def c9Weeks : Nat → List SleeperTransaction := fun w =>
  if w ≤ 4 then [c9tA] else if w = 6 then [c9tB] else []

/-- Counterexample to C9 as stated: with a single empty week (week 5) followed
by a non-empty week 6, the loop already terminates at week 5 — week 6's
transaction is not part of the result, although only one (not "several
consecutive") empty week was seen. -/
theorem claim_c9_counterexample :
    c9Weeks 5 = [] ∧ c9Weeks 6 = [c9tB] ∧ (∀ u, u ≤ 4 → 1 ≤ u → c9Weeks u ≠ []) ∧
    getLeagueTransactionsPure c9Weeks = [c9tA, c9tA, c9tA, c9tA] ∧
    c9tB ∉ getLeagueTransactionsPure c9Weeks := by
  refine ⟨by decide, by decide, ?_, by decide, by decide⟩
  intro u h4 h1
  interval_cases u <;> decide

/-- Witness for C9's amended statement: with the concrete environment above,
the first empty week past week 4 is week 5 and the loop returns weeks 1-5
concatenated. -/
theorem claim_c9_witness :
    5 ≤ 5 ∧ 5 ≤ 18 ∧ c9Weeks 5 = [] ∧
    getLeagueTransactionsPure c9Weeks = concatLists ((weeksFrom 1 5).map c9Weeks) :=
  ⟨by decide, by decide, by decide,
    (claim_c9_weekly_loop c9Weeks).2 5 (by decide) (by decide) (by decide)
      (by intro u h5 hlt; omega)⟩

/-! ## Claim C4: the lineage walk is bounded and duplicate-free -/

theorem historyLoop_bound (fetch : String → Except Unit (Option LeagueMetaResp)) :
    ∀ (fuel : Nat) (cur : Option String) (visited : List String)
      (hist : List LeagueHistory),
      10 - hist.length ≤ fuel → hist.length ≤ 10 →
      ((hist.map fun x => x.league_id).Nodup) →
      (∀ s, s ∈ hist.map (fun x => x.league_id) → s ∈ visited) →
      (historyLoop fetch cur visited hist).1.length ≤ 10 ∧
        ((historyLoop fetch cur visited hist).1.map fun x => x.league_id).Nodup := by
  intro fuel
  induction fuel with
  | zero =>
    intro cur visited hist hfuel hlen hnd hsub
    rw [historyLoop.eq_def]
    split
    · exact ⟨hlen, hnd⟩
    · split
      · rename_i hg
        exact absurd hg.2.1 (by omega)
      · exact ⟨hlen, hnd⟩
  | succ fuel ih =>
    intro cur visited hist hfuel hlen hnd hsub
    rw [historyLoop.eq_def]
    split
    · exact ⟨hlen, hnd⟩
    · rename_i c
      split
      · rename_i hg
        split
        · exact ⟨hlen, hnd⟩
        · exact ⟨hlen, hnd⟩
        · rename_i d hfc
          apply ih
          · simp only [List.length_append, List.length_cons, List.length_nil]
            omega
          · simp only [List.length_append, List.length_cons, List.length_nil]
            omega
          · rw [List.map_append, List.nodup_append]
            refine ⟨hnd, by simp, ?_⟩
            intro a ha hb
            simp only [List.map_cons, List.map_nil, List.mem_singleton] at hb
            subst hb
            exact hg.2.2 (hsub a ha)
          · intro s hs
            rw [List.map_append] at hs
            rcases List.mem_append.1 hs with hmem | hmem
            · exact List.mem_cons_of_mem _ (hsub s hmem)
            · simp only [List.map_cons, List.map_nil, List.mem_singleton] at hmem
              subst hmem
              exact List.mem_cons_self _ _
      · exact ⟨hlen, hnd⟩

/-- C4: for every fetch environment and starting identifier - including
arbitrarily long or cyclic previous-league chains - `getLeagueHistory`
returns at most 10 nodes and never repeats a league identifier.  (The loop
itself is a terminating function of the environment; its recursion is bounded
by `10 - history.length`.) -/
theorem claim_c4_walker_bounded (fetch : String → Except Unit (Option LeagueMetaResp))
    (leagueId : String) :
    (getLeagueHistoryPure fetch leagueId).length ≤ 10 ∧
      ((getLeagueHistoryPure fetch leagueId).map fun h => h.league_id).Nodup := by
  have hb := historyLoop_bound fetch 10 (some leagueId) [] [] (by simp) (by simp)
    (by simp) (by simp)
  unfold getLeagueHistoryPure
  by_cases h2 : (historyLoop fetch (some leagueId) [] []).2
  · rw [if_pos h2]
    by_cases h0 : (historyLoop fetch (some leagueId) [] []).1.length = 0
    · rw [if_pos h0]
      cases hfc : fetch leagueId with
      | error e => simp
      | ok od =>
        cases od with
        | none => simp
        | some d => simp
    · rw [if_neg h0]
      constructor
      · rw [List.length_reverse]
        exact hb.1
      · rw [List.map_reverse, List.nodup_reverse]
        exact hb.2
  · rw [if_neg h2]
    constructor
    · rw [List.length_reverse]
      exact hb.1
    · rw [List.map_reverse, List.nodup_reverse]
      exact hb.2

/-! ## Claim C8: oldest-to-newest ordering and first-fetch failure fallback -/

/-- Adjacent linkage of the newest-first chain collected by the loop: each
pushed node's previous-league pointer names the next pushed node. -/
def Chained (l : List LeagueHistory) : Prop :=
  ∀ i (h : i + 1 < l.length),
    (l.get ⟨i, Nat.lt_of_succ_lt h⟩).previousLeagueId =
      some ((l.get ⟨i + 1, h⟩).league_id)

theorem chained_nil : Chained [] := by
  intro i h
  simp at h

theorem get_append_left_lh (l₁ l₂ : List LeagueHistory) (i : Nat)
    (h1 : i < l₁.length) (h2 : i < (l₁ ++ l₂).length) :
    (l₁ ++ l₂).get ⟨i, h2⟩ = l₁.get ⟨i, h1⟩ := by
  simp only [List.get_eq_getElem]
  rw [List.getElem_append i h2]
  simp [h1]

theorem get_append_at_length (l : List LeagueHistory) (x : LeagueHistory)
    (h : l.length < (l ++ [x]).length) :
    (l ++ [x]).get ⟨l.length, h⟩ = x := by
  simp only [List.get_eq_getElem]
  rw [List.getElem_append l.length h]
  simp

theorem chained_append (l : List LeagueHistory) (x : LeagueHistory)
    (hc : Chained l)
    (hlast : ∀ hne : l ≠ [], (l.getLast hne).previousLeagueId = some x.league_id) :
    Chained (l ++ [x]) := by
  intro i h
  have hlen : (l ++ [x]).length = l.length + 1 := by simp
  have hi1 : i + 1 ≤ l.length := by omega
  rcases lt_or_eq_of_le hi1 with hlt | heq
  · rw [get_append_left_lh l [x] i (by omega) _, get_append_left_lh l [x] (i + 1) hlt _]
    exact hc i hlt
  · have hne : l ≠ [] := by
      intro hnil
      rw [hnil] at heq
      simp at heq
    have hgi : (l ++ [x]).get ⟨i, Nat.lt_of_succ_lt h⟩ = l.get ⟨i, by omega⟩ :=
      get_append_left_lh l [x] i (by omega) _
    have hfin : (⟨i + 1, h⟩ : Fin (l ++ [x]).length) = ⟨l.length, by omega⟩ :=
      Fin.ext heq
    have hgi1 : (l ++ [x]).get ⟨i + 1, h⟩ = x := by
      rw [hfin]
      exact get_append_at_length l x (by omega)
    rw [hgi, hgi1]
    have hlg : l.get ⟨i, by omega⟩ = l.getLast hne := by
      rw [List.getLast_eq_getElem]
      simp only [List.get_eq_getElem]
      congr 1
      omega
    rw [hlg]
    exact hlast hne

theorem historyLoop_chained (fetch : String → Except Unit (Option LeagueMetaResp)) :
    ∀ (fuel : Nat) (cur : Option String) (visited : List String)
      (hist : List LeagueHistory),
      10 - hist.length ≤ fuel → Chained hist →
      (∀ hne : hist ≠ [], (hist.getLast hne).previousLeagueId = cur) →
      Chained (historyLoop fetch cur visited hist).1 := by
  intro fuel
  induction fuel with
  | zero =>
    intro cur visited hist hfuel hc hlast
    rw [historyLoop.eq_def]
    split
    · exact hc
    · split
      · rename_i hg
        exact absurd hg.2.1 (by omega)
      · exact hc
  | succ fuel ih =>
    intro cur visited hist hfuel hc hlast
    rw [historyLoop.eq_def]
    split
    · exact hc
    · rename_i c
      split
      · rename_i hg
        split
        · exact hc
        · exact hc
        · rename_i d hfc
          apply ih
          · simp only [List.length_append, List.length_cons, List.length_nil]
            omega
          · exact chained_append hist _ hc (fun hne => hlast hne)
          · intro hne
            simp
      · exact hc

theorem chained_reverse_linkage (l : List LeagueHistory) (hc : Chained l) :
    ∀ i (h : i + 1 < l.reverse.length),
      (l.reverse.get ⟨i + 1, h⟩).previousLeagueId =
        some ((l.reverse.get ⟨i, Nat.lt_of_succ_lt h⟩).league_id) := by
  intro i h
  have hlen : l.reverse.length = l.length := List.length_reverse l
  have hn : i + 1 < l.length := by omega
  have h1 : l.reverse.get ⟨i + 1, h⟩ = l.get ⟨l.length - 1 - (i + 1), by omega⟩ := by
    simp only [List.get_eq_getElem]
    rw [List.getElem_reverse]
  have h2 : l.reverse.get ⟨i, Nat.lt_of_succ_lt h⟩ = l.get ⟨l.length - 1 - i, by omega⟩ := by
    simp only [List.get_eq_getElem]
    rw [List.getElem_reverse]
  rw [h1, h2]
  have hj : l.length - 1 - (i + 1) + 1 < l.length := by omega
  have hlink := hc (l.length - 1 - (i + 1)) hj
  have hfin : (⟨l.length - 1 - i, by omega⟩ : Fin l.length) =
      ⟨l.length - 1 - (i + 1) + 1, hj⟩ := by
    apply Fin.ext
    simp only [Fin.val_mk]
    omega
  rw [hfin]
  exact hlink

/-- C8: the lineage walker returns its sequence oldest-to-newest - in the
returned list each node's successor points back at it through
`previousLeagueId` (the collected newest-first chain is reversed before
return) - and when the very first league fetch throws, the walker (whose
in-catch retry hits the same deterministic failure) returns the single
degraded node `{league_id, season: "", previousLeagueId: undefined}` instead
of propagating the failure. -/
theorem claim_c8_walker_order_and_fallback
    (fetch : String → Except Unit (Option LeagueMetaResp)) (leagueId : String) :
    (leagueId ≠ "" → fetch leagueId = Except.error () →
      getLeagueHistoryPure fetch leagueId = [⟨leagueId, none, ""⟩]) ∧
    (∀ i (h : i + 1 < (getLeagueHistoryPure fetch leagueId).length),
      ((getLeagueHistoryPure fetch leagueId).get ⟨i + 1, h⟩).previousLeagueId =
        some (((getLeagueHistoryPure fetch leagueId).get
          ⟨i, Nat.lt_of_succ_lt h⟩).league_id)) := by
  constructor
  · intro hne herr
    simp [getLeagueHistoryPure, historyLoop.eq_def, herr, hne]
  · have hch : Chained (historyLoop fetch (some leagueId) [] []).1 :=
      historyLoop_chained fetch 10 (some leagueId) [] [] (by simp) chained_nil
        (by intro hne; exact absurd rfl hne)
    intro i h
    revert h
    unfold getLeagueHistoryPure
    by_cases h2 : (historyLoop fetch (some leagueId) [] []).2
    · rw [if_pos h2]
      by_cases h0 : (historyLoop fetch (some leagueId) [] []).1.length = 0
      · rw [if_pos h0]
        cases hfc : fetch leagueId with
        | error e =>
          intro h
          simp at h
        | ok od =>
          cases od with
          | none =>
            intro h
            simp at h
          | some d =>
            intro h
            simp at h
      · rw [if_neg h0]
        exact fun h => chained_reverse_linkage _ hch i h
    · rw [if_neg h2]
      exact fun h => chained_reverse_linkage _ hch i h

def c8errFetch : String → Except Unit (Option LeagueMetaResp) := fun _ => Except.error ()

def c8goodFetch : String → Except Unit (Option LeagueMetaResp) := fun s =>
  if s = "A" then Except.ok (some ⟨"2023", some "B"⟩)
  else if s = "B" then Except.ok (some ⟨"2022", none⟩)
  else Except.ok none

theorem c8good_history :
    getLeagueHistoryPure c8goodFetch "A" =
      [⟨"B", none, "2022"⟩, ⟨"A", some "B", "2023"⟩] := by
  simp [getLeagueHistoryPure, historyLoop.eq_def, c8goodFetch]

theorem c8good_len : 0 + 1 < (getLeagueHistoryPure c8goodFetch "A").length := by
  rw [c8good_history]
  simp

/-- Witness for C8: a concrete always-throwing environment yields the single
degraded node, and in a concrete two-season chain the second returned node
points back at the first. -/
theorem claim_c8_witness :
    getLeagueHistoryPure c8errFetch "L" = [⟨"L", none, ""⟩] ∧
    ((getLeagueHistoryPure c8goodFetch "A").get ⟨0 + 1, c8good_len⟩).previousLeagueId =
      some (((getLeagueHistoryPure c8goodFetch "A").get
        ⟨0, Nat.lt_of_succ_lt c8good_len⟩).league_id) :=
  ⟨(claim_c8_walker_order_and_fallback c8errFetch "L").1 (by decide) rfl,
    (claim_c8_walker_order_and_fallback c8goodFetch "A").2 0 c8good_len⟩

/-! ## Claim C1: the fallback resolver and its (non-)exhaustiveness -/

theorem applyFallback_no_unknown (m : AcqMap) (k : String) (r : AcquisitionRecord)
    (h : lookupAcq (applyFallback m) k = some r) : r.rtype ≠ "Unknown" := by
  rw [lookupAcq_applyFallback] at h
  cases hl : lookupAcq m k with
  | none =>
    rw [hl] at h
    simp at h
  | some r0 =>
    rw [hl] at h
    simp only [Option.map_some'] at h
    by_cases h0 : r0.rtype = "Unknown"
    · rw [if_pos h0] at h
      have : r = previousOwnerRecord := by
        injection h with h
        exact h.symm
      rw [this]
      decide
    · rw [if_neg h0] at h
      have : r = r0 := by
        injection h with h
        exact h.symm
      rw [this]
      exact h0

/-- C1 (amended): when the fallback guard of line 558 holds - any of the four
listed lineage conditions - every record in the returned mapping (hence every
roster player's record) has a kind other than `"Unknown"`.  The four
conditions are NOT exhaustive: see the counterexample, where the participant
is found in the lineage, a startup draft is designated, at least one
startup-classified pick is produced and no drafts predate the participant,
and a roster player untouched by any event remains `"Unknown"`. -/
theorem claim_c1_fallback_amended (ld : Option SleeperLeague)
    (lhd : List LeagueHistory) (allData : List SeasonData)
    (userId : String) (roster : SleeperRoster)
    (hne : ¬lhd.length = 0)
    (hfb : fallbackCondition (computeLineageFlags userId lhd allData)
        (fuseAllSeasons (settingsType ld == some 0)
          (computeLineageFlags userId lhd allData) userId roster ld lhd allData
          (initAcquisitions roster)).2 = true) :
    ∀ k r, lookupAcq (getPlayerAcquisitionsPure ld lhd allData userId roster) k = some r →
      r.rtype ≠ "Unknown" := by
  intro k r h
  simp only [getPlayerAcquisitionsPure] at h
  rw [if_neg hne, if_pos hfb] at h
  exact applyFallback_no_unknown _ _ _ h

def c1Roster : SleeperRoster := ⟨1, "u", ["A", "B"]⟩

def c1Lhd : List LeagueHistory := [⟨"L", none, "2023"⟩]

/-- A single historical season in which the user has a roster and one draft
(id "5") in which the user picked only player "A". -/
def c1Season : SeasonData :=
  ⟨"L", "2023", some ⟨1, "u", []⟩, [⟨⟨"5", none, none⟩, [⟨"A", "u", 1, 1⟩]⟩], []⟩

/-- Counterexample to C1 as stated: the run completes without cancellation
(player "A" is resolved as a startup pick, so the startup count is 1, a
startup draft is designated, the user is found, and no drafts predate the
user), none of the four fallback conditions fires, and roster player "B" is
returned still `"Unknown"`. -/
theorem claim_c1_counterexample :
    "B" ∈ c1Roster.players ∧
    lookupAcq (getPlayerAcquisitionsPure none c1Lhd [c1Season] "u" c1Roster) "A" =
      some ⟨"Startup Draft", "1.01", juneFirstMillis "2023"⟩ ∧
    lookupAcq (getPlayerAcquisitionsPure none c1Lhd [c1Season] "u" c1Roster) "B" =
      some ⟨"Unknown", "", 0⟩ :=
  ⟨by decide, by decide, by decide⟩

/-- Witness for the amended C1: with the user absent from every aggregated
season the fourth fallback condition fires and the roster player resolves to
`"Previous Owner"`. -/
theorem claim_c1_witness :
    ¬c1Lhd.length = 0 ∧
    lookupAcq (getPlayerAcquisitionsPure none c1Lhd [] "u" ⟨1, "u", ["A"]⟩) "A" =
      some previousOwnerRecord ∧
    previousOwnerRecord.rtype ≠ "Unknown" :=
  ⟨by decide, by decide,
    claim_c1_fallback_amended none c1Lhd [] "u" ⟨1, "u", ["A"]⟩ (by decide) (by decide)
      "A" previousOwnerRecord (by decide)⟩

/-! ## Shape lemmas for the fusion steps -/

theorem applyTransactionAdd_shape (rp : List String) (t : SleeperTransaction)
    (m : AcqMap) (p : String) :
    applyTransactionAdd rp t m p = m ∨
      (p ∈ rp ∧ applyTransactionAdd rp t m p = setAcq m p (mkTransactionRecord t)) := by
  unfold applyTransactionAdd
  by_cases hp : p ∈ rp
  · rw [if_pos hp]
    cases hl : lookupAcq m p with
    | none => exact Or.inr ⟨hp, rfl⟩
    | some cur =>
      dsimp only
      by_cases hc : cur.rtype = "Unknown" ∨
          (t.created ≠ 0 ∧ (cur.timestamp = 0 ∨ cur.timestamp < t.created))
      · rw [if_pos hc]
        exact Or.inr ⟨hp, rfl⟩
      · rw [if_neg hc]
        exact Or.inl rfl
  · rw [if_neg hp]
    exact Or.inl rfl

theorem applyDraftPickStep_shape (dt : String) (meta : LeagueHistory) (teams : Nat)
    (st : AcqMap × Nat) (pick : SleeperDraftPick) :
    (applyDraftPickStep dt meta teams st pick).1 = st.1 ∨
      (applyDraftPickStep dt meta teams st pick).1 =
        setAcq st.1 pick.player_id (mkDraftRecord dt meta teams pick) := by
  unfold applyDraftPickStep
  split
  · exact Or.inr rfl
  · exact Or.inl rfl

theorem mkDraftRecord_rtype (dt : String) (meta : LeagueHistory) (teams : Nat)
    (pick : SleeperDraftPick) : (mkDraftRecord dt meta teams pick).rtype = dt := rfl

theorem transactionRecordType_cases (t : SleeperTransaction) :
    transactionRecordType t = "Trade" ∨ transactionRecordType t = "Waiver Wire" ∨
      transactionRecordType t = "Free Agency" ∨
      transactionRecordType t = "Unknown Transaction" := by
  unfold transactionRecordType
  split_ifs <;> simp

theorem mkTransactionRecord_rtype_ne_unknown (t : SleeperTransaction) :
    (mkTransactionRecord t).rtype ≠ "Unknown" := by
  have hr : (mkTransactionRecord t).rtype = transactionRecordType t := rfl
  rw [hr]
  rcases transactionRecordType_cases t with h | h | h | h <;> rw [h] <;> decide

theorem mkTransactionRecord_rtype_ne_rookie (t : SleeperTransaction) :
    (mkTransactionRecord t).rtype ≠ "Rookie Draft" := by
  have hr : (mkTransactionRecord t).rtype = transactionRecordType t := rfl
  rw [hr]
  rcases transactionRecordType_cases t with h | h | h | h <;> rw [h] <;> decide

theorem draftTypeFor_cases (ir : Bool) (fl : LineageFlags) (meta : LeagueHistory)
    (di : DraftInfo) :
    draftTypeFor ir fl meta di = "Startup Draft" ∨
      draftTypeFor ir fl meta di = "Rookie Draft" := by
  unfold draftTypeFor
  split_ifs <;> simp

theorem draftTypeFor_ne_unknown (ir : Bool) (fl : LineageFlags) (meta : LeagueHistory)
    (di : DraftInfo) : draftTypeFor ir fl meta di ≠ "Unknown" := by
  rcases draftTypeFor_cases ir fl meta di with h | h <;> rw [h] <;> decide

theorem draftTypeFor_redraft (fl : LineageFlags) (meta : LeagueHistory)
    (di : DraftInfo) : draftTypeFor true fl meta di = "Startup Draft" := rfl

theorem mem_insertDraft (a d : DraftData) (l : List DraftData) :
    a ∈ insertDraft d l ↔ a = d ∨ a ∈ l := by
  induction l with
  | nil => simp [insertDraft]
  | cons e rest ih =>
    unfold insertDraft
    split
    · simp
    · simp only [List.mem_cons, ih]
      tauto

theorem mem_sortDraftsById (a : DraftData) (l : List DraftData) :
    a ∈ sortDraftsById l ↔ a ∈ l := by
  induction l with
  | nil => simp [sortDraftsById]
  | cons x xs ih =>
    have hfold : sortDraftsById (x :: xs) = insertDraft x (sortDraftsById xs) := rfl
    rw [hfold, mem_insertDraft]
    simp only [List.mem_cons, ih]

/-! ## Lookup preservation through the fusion steps

Every write performed after initialisation stores a record produced by
`mkDraftRecord` (whose kind is the classified draft type) or by
`mkTransactionRecord`; these lemmas propagate "the lookup at `k` is either
unchanged or holds such a written record" through the folds. -/

theorem applyTransactionAdd_lookup_or (G : AcquisitionRecord → Prop)
    (rp : List String) (t : SleeperTransaction) (m : AcqMap) (p k : String)
    (hG : G (mkTransactionRecord t)) :
    lookupAcq (applyTransactionAdd rp t m p) k = lookupAcq m k ∨
      ∃ w, lookupAcq (applyTransactionAdd rp t m p) k = some w ∧ G w := by
  rcases applyTransactionAdd_shape rp t m p with hs | ⟨hp, hs⟩
  · rw [hs]
    exact Or.inl rfl
  · rw [hs, lookupAcq_setAcq]
    by_cases hk : k = p
    · right
      exact ⟨_, by rw [if_pos hk], hG⟩
    · left
      rw [if_neg hk]

theorem applyTransaction_lookup_or (G : AcquisitionRecord → Prop)
    (rp : List String) (rid : Nat) (m : AcqMap) (t : SleeperTransaction) (k : String)
    (hG : ∀ t' : SleeperTransaction, G (mkTransactionRecord t')) :
    lookupAcq (applyTransaction rp rid m t) k = lookupAcq m k ∨
      ∃ w, lookupAcq (applyTransaction rp rid m t) k = some w ∧ G w := by
  unfold applyTransaction
  split
  · apply foldl_rec
      (fun m' => lookupAcq m' k = lookupAcq m k ∨ ∃ w, lookupAcq m' k = some w ∧ G w)
      _ t.adds m (Or.inl rfl)
    intro a b _ ha
    rcases applyTransactionAdd_lookup_or G rp t a b.1 k (hG t) with h | h
    · rw [h]
      exact ha
    · exact Or.inr h
  · exact Or.inl rfl

theorem applyDraftPickStep_lookup_or (G : AcquisitionRecord → Prop)
    (dt : String) (meta : LeagueHistory) (teams : Nat) (st : AcqMap × Nat)
    (pick : SleeperDraftPick) (k : String)
    (hG : ∀ pk : SleeperDraftPick, G (mkDraftRecord dt meta teams pk)) :
    lookupAcq (applyDraftPickStep dt meta teams st pick).1 k = lookupAcq st.1 k ∨
      ∃ w, lookupAcq (applyDraftPickStep dt meta teams st pick).1 k = some w ∧ G w := by
  rcases applyDraftPickStep_shape dt meta teams st pick with hs | hs
  · rw [hs]
    exact Or.inl rfl
  · rw [hs, lookupAcq_setAcq]
    by_cases hk : k = pick.player_id
    · right
      exact ⟨_, by rw [if_pos hk], hG pick⟩
    · left
      rw [if_neg hk]

theorem applyDraft_lookup_or (G : AcquisitionRecord → Prop)
    (ir : Bool) (fl : LineageFlags) (userId : String) (meta : LeagueHistory)
    (teams : Nat) (st : AcqMap × Nat) (dd : DraftData) (k : String)
    (hG : ∀ (di : DraftInfo) (pk : SleeperDraftPick),
      G (mkDraftRecord (draftTypeFor ir fl meta di) meta teams pk)) :
    lookupAcq (applyDraft ir fl userId meta teams st dd).1 k = lookupAcq st.1 k ∨
      ∃ w, lookupAcq (applyDraft ir fl userId meta teams st dd).1 k = some w ∧ G w := by
  simp only [applyDraft]
  split
  · exact Or.inl rfl
  · apply foldl_rec
      (fun st' : AcqMap × Nat =>
        lookupAcq st'.1 k = lookupAcq st.1 k ∨ ∃ w, lookupAcq st'.1 k = some w ∧ G w)
      _ _ st (Or.inl rfl)
    intro a b _ ha
    rcases applyDraftPickStep_lookup_or G (draftTypeFor ir fl meta dd.draftInfo)
        meta teams a b k (fun pk => hG dd.draftInfo pk) with h | h
    · rw [h]
      exact ha
    · exact Or.inr h

theorem processSeason_lookup_or (G : AcquisitionRecord → Prop)
    (ir : Bool) (fl : LineageFlags) (userId : String) (roster : SleeperRoster)
    (ld : Option SleeperLeague) (lhd : List LeagueHistory)
    (st : AcqMap × Nat) (hd : SeasonData) (k : String)
    (hGd : ∀ (meta : LeagueHistory) (di : DraftInfo) (pk : SleeperDraftPick),
      G (mkDraftRecord (draftTypeFor ir fl meta di) meta (teamsInLeague ld) pk))
    (hGt : ∀ t : SleeperTransaction, G (mkTransactionRecord t)) :
    lookupAcq (processSeason ir fl userId roster ld lhd st hd).1 k = lookupAcq st.1 k ∨
      ∃ w, lookupAcq (processSeason ir fl userId roster ld lhd st hd).1 k = some w ∧ G w := by
  unfold processSeason
  cases hro : hd.roster with
  | none => exact Or.inl rfl
  | some ur =>
    cases hfind : lhd.find? (fun lh => lh.league_id == hd.leagueId && lh.season == hd.season) with
    | none => exact Or.inl rfl
    | some meta =>
      dsimp only
      have hdrafts :
          lookupAcq ((sortDraftsById hd.drafts).foldl
            (applyDraft ir fl userId meta (teamsInLeague ld)) st).1 k = lookupAcq st.1 k ∨
          ∃ w, lookupAcq ((sortDraftsById hd.drafts).foldl
            (applyDraft ir fl userId meta (teamsInLeague ld)) st).1 k = some w ∧ G w := by
        apply foldl_rec
          (fun st' : AcqMap × Nat =>
            lookupAcq st'.1 k = lookupAcq st.1 k ∨ ∃ w, lookupAcq st'.1 k = some w ∧ G w)
          _ _ st (Or.inl rfl)
        intro a b _ ha
        rcases applyDraft_lookup_or G ir fl userId meta (teamsInLeague ld) a b k
            (fun di pk => hGd meta di pk) with h | h
        · rw [h]
          exact ha
        · exact Or.inr h
      apply foldl_rec
        (fun m' : AcqMap =>
          lookupAcq m' k = lookupAcq st.1 k ∨ ∃ w, lookupAcq m' k = some w ∧ G w)
        _ hd.transactions _ hdrafts
      intro a b _ ha
      rcases applyTransaction_lookup_or G roster.players ur.roster_id a b k hGt with h | h
      · rw [h]
        exact ha
      · exact Or.inr h

theorem seasons_lookup_or (G : AcquisitionRecord → Prop)
    (ir : Bool) (fl : LineageFlags) (userId : String) (roster : SleeperRoster)
    (ld : Option SleeperLeague) (lhd : List LeagueHistory)
    (seasons : List SeasonData) (st : AcqMap × Nat) (k : String)
    (hGd : ∀ (meta : LeagueHistory) (di : DraftInfo) (pk : SleeperDraftPick),
      G (mkDraftRecord (draftTypeFor ir fl meta di) meta (teamsInLeague ld) pk))
    (hGt : ∀ t : SleeperTransaction, G (mkTransactionRecord t)) :
    lookupAcq (seasons.foldl (processSeason ir fl userId roster ld lhd) st).1 k =
      lookupAcq st.1 k ∨
      ∃ w, lookupAcq (seasons.foldl (processSeason ir fl userId roster ld lhd) st).1 k =
        some w ∧ G w := by
  apply foldl_rec
    (fun st' : AcqMap × Nat =>
      lookupAcq st'.1 k = lookupAcq st.1 k ∨ ∃ w, lookupAcq st'.1 k = some w ∧ G w)
    _ seasons st (Or.inl rfl)
  intro a b _ ha
  rcases processSeason_lookup_or G ir fl userId roster ld lhd a b k hGd hGt with h | h
  · rw [h]
    exact ha
  · exact Or.inr h

/-! ## Claim C7: a known kind is never downgraded to Unknown -/

/-- C7: once a player's record kind is something other than `"Unknown"`, no
later fusion event (any further seasons' draft picks and transactions, and
the fallback pass) ever sets it back to `"Unknown"`: every overwrite stores a
classified draft type or a transaction kind, none of which is `"Unknown"`. -/
theorem claim_c7_no_downgrade (ir : Bool) (fl : LineageFlags) (userId : String)
    (roster : SleeperRoster) (ld : Option SleeperLeague) (lhd : List LeagueHistory)
    (seasons : List SeasonData) (m : AcqMap) (c : Nat) (k : String)
    (r : AcquisitionRecord)
    (h1 : lookupAcq m k = some r) (h2 : r.rtype ≠ "Unknown") :
    (∃ r1, lookupAcq (seasons.foldl (processSeason ir fl userId roster ld lhd) (m, c)).1 k =
        some r1 ∧ r1.rtype ≠ "Unknown") ∧
    (∃ r2, lookupAcq (applyFallback
        (seasons.foldl (processSeason ir fl userId roster ld lhd) (m, c)).1) k =
        some r2 ∧ r2.rtype ≠ "Unknown") := by
  have hmain : ∃ r1,
      lookupAcq (seasons.foldl (processSeason ir fl userId roster ld lhd) (m, c)).1 k =
        some r1 ∧ r1.rtype ≠ "Unknown" := by
    rcases seasons_lookup_or (fun w => w.rtype ≠ "Unknown") ir fl userId roster ld lhd
        seasons (m, c) k
        (fun meta di pk => by
          show (mkDraftRecord (draftTypeFor ir fl meta di) meta (teamsInLeague ld) pk).rtype ≠ "Unknown"
          rw [mkDraftRecord_rtype]
          exact draftTypeFor_ne_unknown ir fl meta di)
        (fun t => mkTransactionRecord_rtype_ne_unknown t) with h | h
    · exact ⟨r, by rw [h]; exact h1, h2⟩
    · exact h
  refine ⟨hmain, ?_⟩
  obtain ⟨r1, hr1, hne1⟩ := hmain
  refine ⟨if r1.rtype = "Unknown" then previousOwnerRecord else r1, ?_, ?_⟩
  · rw [lookupAcq_applyFallback, hr1]
    rfl
  · rw [if_neg hne1]
    exact hne1

def c7M : AcqMap := [("p", ⟨"Trade", "d", 5⟩)]

/-- Witness for C7 at a concrete map, player and (empty) remaining season
list. -/
theorem claim_c7_witness :
    lookupAcq c7M "p" = some ⟨"Trade", "d", 5⟩ ∧
    (AcquisitionRecord.mk "Trade" "d" 5).rtype ≠ "Unknown" ∧
    ((∃ r1, lookupAcq (([] : List SeasonData).foldl
        (processSeason false ⟨none, none, false, false⟩ "u" ⟨1, "u", ["p"]⟩ none [])
        (c7M, 0)).1 "p" = some r1 ∧ r1.rtype ≠ "Unknown") ∧
      (∃ r2, lookupAcq (applyFallback (([] : List SeasonData).foldl
        (processSeason false ⟨none, none, false, false⟩ "u" ⟨1, "u", ["p"]⟩ none [])
        (c7M, 0)).1) "p" = some r2 ∧ r2.rtype ≠ "Unknown")) :=
  ⟨by decide, by decide,
    claim_c7_no_downgrade false ⟨none, none, false, false⟩ "u" ⟨1, "u", ["p"]⟩ none []
      [] c7M 0 "p" ⟨"Trade", "d", 5⟩ (by decide) (by decide)⟩

/-! ## Claim C6: redraft leagues never classify Rookie Draft -/

/-- C6: when the league's settings type is 0 (redraft), no record in the
returned mapping is ever classified `"Rookie Draft"`: every draft write is
`"Startup Draft"`, every transaction write is a transaction kind, the
initial records are `"Unknown"`, and the fallback writes `"Previous
Owner"`. -/
theorem claim_c6_redraft_no_rookie (ld : Option SleeperLeague)
    (lhd : List LeagueHistory) (allData : List SeasonData)
    (userId : String) (roster : SleeperRoster)
    (hrd : settingsType ld = some 0) :
    ∀ k r, lookupAcq (getPlayerAcquisitionsPure ld lhd allData userId roster) k = some r →
      r.rtype ≠ "Rookie Draft" := by
  intro k r h
  have hinit : ∀ r0 : AcquisitionRecord,
      lookupAcq (initAcquisitions roster) k = some r0 → r0.rtype ≠ "Rookie Draft" := by
    intro r0 h0
    rw [lookupAcq_init] at h0
    by_cases hk : k ∈ roster.players
    · rw [if_pos hk] at h0
      injection h0 with h0
      rw [← h0]
      decide
    · rw [if_neg hk] at h0
      simp at h0
  simp only [getPlayerAcquisitionsPure] at h
  by_cases hlen : lhd.length = 0
  · rw [if_pos hlen] at h
    exact hinit r h
  · rw [if_neg hlen] at h
    rw [hrd] at h
    have hbeq : ((some 0 : Option Nat) == some 0) = true := rfl
    rw [hbeq] at h
    have hchar : ∀ r0 : AcquisitionRecord,
        lookupAcq (fuseAllSeasons true (computeLineageFlags userId lhd allData) userId
          roster ld lhd allData (initAcquisitions roster)).1 k = some r0 →
        r0.rtype ≠ "Rookie Draft" := by
      intro r0 h0
      unfold fuseAllSeasons at h0
      rcases seasons_lookup_or (fun w => w.rtype ≠ "Rookie Draft") true
          (computeLineageFlags userId lhd allData) userId roster ld lhd allData
          (initAcquisitions roster, 0) k
          (fun meta di pk => by
            show (mkDraftRecord (draftTypeFor true (computeLineageFlags userId lhd allData)
              meta di) meta (teamsInLeague ld) pk).rtype ≠ "Rookie Draft"
            rw [mkDraftRecord_rtype, draftTypeFor_redraft]
            decide)
          (fun t => mkTransactionRecord_rtype_ne_rookie t) with heq | ⟨w, hw, hGw⟩
      · rw [heq] at h0
        exact hinit r0 h0
      · rw [hw] at h0
        injection h0 with h0
        rw [← h0]
        exact hGw
    by_cases hfb : fallbackCondition (computeLineageFlags userId lhd allData)
        (fuseAllSeasons true (computeLineageFlags userId lhd allData) userId roster ld
          lhd allData (initAcquisitions roster)).2 = true
    · rw [if_pos hfb] at h
      rw [lookupAcq_applyFallback] at h
      cases hl : lookupAcq (fuseAllSeasons true (computeLineageFlags userId lhd allData)
          userId roster ld lhd allData (initAcquisitions roster)).1 k with
      | none =>
        rw [hl] at h
        simp at h
      | some r0 =>
        rw [hl] at h
        simp only [Option.map_some'] at h
        injection h with h
        rw [← h]
        by_cases h0 : r0.rtype = "Unknown"
        · rw [if_pos h0]
          decide
        · rw [if_neg h0]
          exact hchar r0 hl
    · rw [if_neg hfb] at h
      exact hchar r h

def c6Ld : Option SleeperLeague := some ⟨"L", "2023", 12, none, some ⟨some 0⟩⟩

def c6Lhd : List LeagueHistory := [⟨"L", none, "2023"⟩]

def c6Season : SeasonData :=
  ⟨"L", "2023", some ⟨1, "u", []⟩, [⟨⟨"5", none, none⟩, [⟨"A", "u", 1, 1⟩]⟩], []⟩

/-- Witness for C6 on a concrete redraft league: the drafted player's record
is `"Startup Draft"`, not `"Rookie Draft"`. -/
theorem claim_c6_witness :
    settingsType c6Ld = some 0 ∧
    lookupAcq (getPlayerAcquisitionsPure c6Ld c6Lhd [c6Season] "u" ⟨1, "u", ["A"]⟩) "A" =
      some ⟨"Startup Draft", "1.01", juneFirstMillis "2023"⟩ ∧
    (AcquisitionRecord.mk "Startup Draft" "1.01" (juneFirstMillis "2023")).rtype ≠
      "Rookie Draft" :=
  ⟨rfl, by decide,
    claim_c6_redraft_no_rookie c6Ld c6Lhd [c6Season] "u" ⟨1, "u", ["A"]⟩ rfl "A"
      ⟨"Startup Draft", "1.01", juneFirstMillis "2023"⟩ (by decide)⟩

/-! ## Key-set tracking through the fusion steps (claim C2) -/

theorem hasKey_init (roster : SleeperRoster) (k : String) :
    hasKey (initAcquisitions roster) k = true ↔ k ∈ roster.players := by
  constructor
  · intro h
    by_contra hk
    have hnone : lookupAcq (initAcquisitions roster) k = none := by
      rw [lookupAcq_init, if_neg hk]
    rw [lookupAcq_eq_none_iff] at hnone
    rw [hnone] at h
    simp at h
  · intro hk
    by_contra h
    have hfalse : hasKey (initAcquisitions roster) k = false := by
      cases hh : hasKey (initAcquisitions roster) k with
      | false => rfl
      | true => exact absurd hh h
    rw [← lookupAcq_eq_none_iff, lookupAcq_init, if_pos hk] at hfalse
    simp at hfalse

theorem keysNodup_init (roster : SleeperRoster) :
    ((initAcquisitions roster).map Prod.fst).Nodup := by
  unfold initAcquisitions
  apply foldl_rec (fun m : AcqMap => (m.map Prod.fst).Nodup) _ roster.players []
    (by simp)
  intro a b _ ha
  exact keysNodup_setAcq a b _ ha

theorem applyTransactionAdd_keys (rp : List String) (t : SleeperTransaction)
    (m : AcqMap) (p k : String) :
    (hasKey (applyTransactionAdd rp t m p) k = true → hasKey m k = true ∨ k ∈ rp) ∧
    (hasKey m k = true → hasKey (applyTransactionAdd rp t m p) k = true) ∧
    ((m.map Prod.fst).Nodup → ((applyTransactionAdd rp t m p).map Prod.fst).Nodup) := by
  rcases applyTransactionAdd_shape rp t m p with hs | ⟨hp, hs⟩
  · rw [hs]
    exact ⟨fun h => Or.inl h, id, id⟩
  · rw [hs]
    refine ⟨?_, ?_, ?_⟩
    · intro h
      rcases (hasKey_setAcq m p _ k).1 h with h' | h'
      · right
        rw [h']
        exact hp
      · exact Or.inl h'
    · intro h
      exact (hasKey_setAcq m p _ k).2 (Or.inr h)
    · intro h
      exact keysNodup_setAcq m p _ h

theorem applyDraftPickStep_keys (dt : String) (meta : LeagueHistory) (teams : Nat)
    (st : AcqMap × Nat) (pick : SleeperDraftPick) (k : String) :
    (hasKey (applyDraftPickStep dt meta teams st pick).1 k = true →
      hasKey st.1 k = true ∨ k = pick.player_id) ∧
    (hasKey st.1 k = true → hasKey (applyDraftPickStep dt meta teams st pick).1 k = true) ∧
    ((st.1.map Prod.fst).Nodup →
      ((applyDraftPickStep dt meta teams st pick).1.map Prod.fst).Nodup) := by
  rcases applyDraftPickStep_shape dt meta teams st pick with hs | hs
  · rw [hs]
    exact ⟨fun h => Or.inl h, id, id⟩
  · rw [hs]
    refine ⟨?_, ?_, ?_⟩
    · intro h
      rcases (hasKey_setAcq st.1 pick.player_id _ k).1 h with h' | h'
      · exact Or.inr h'
      · exact Or.inl h'
    · intro h
      exact (hasKey_setAcq st.1 pick.player_id _ k).2 (Or.inr h)
    · intro h
      exact keysNodup_setAcq st.1 pick.player_id _ h

theorem foldl_keys {β : Type} (C : Prop) (f : AcqMap → β → AcqMap) (l : List β)
    (m : AcqMap) (k : String)
    (hstep : ∀ m' b, b ∈ l →
      (hasKey (f m' b) k = true → hasKey m' k = true ∨ C) ∧
      (hasKey m' k = true → hasKey (f m' b) k = true) ∧
      ((m'.map Prod.fst).Nodup → ((f m' b).map Prod.fst).Nodup)) :
    (hasKey (l.foldl f m) k = true → hasKey m k = true ∨ C) ∧
    (hasKey m k = true → hasKey (l.foldl f m) k = true) ∧
    ((m.map Prod.fst).Nodup → ((l.foldl f m).map Prod.fst).Nodup) := by
  apply foldl_rec (fun m' : AcqMap =>
    (hasKey m' k = true → hasKey m k = true ∨ C) ∧
    (hasKey m k = true → hasKey m' k = true) ∧
    ((m.map Prod.fst).Nodup → (m'.map Prod.fst).Nodup)) f l m
    ⟨fun h => Or.inl h, id, id⟩
  intro a b hb ha
  obtain ⟨hs1, hs2, hs3⟩ := hstep a b hb
  refine ⟨?_, ?_, ?_⟩
  · intro h
    rcases hs1 h with h' | h'
    · exact ha.1 h'
    · exact Or.inr h'
  · intro h
    exact hs2 (ha.2.1 h)
  · intro h
    exact hs3 (ha.2.2 h)

theorem foldl_keys_pair {β : Type} (C : Prop) (f : AcqMap × Nat → β → AcqMap × Nat)
    (l : List β) (st : AcqMap × Nat) (k : String)
    (hstep : ∀ st' b, b ∈ l →
      (hasKey (f st' b).1 k = true → hasKey st'.1 k = true ∨ C) ∧
      (hasKey st'.1 k = true → hasKey (f st' b).1 k = true) ∧
      ((st'.1.map Prod.fst).Nodup → ((f st' b).1.map Prod.fst).Nodup)) :
    (hasKey (l.foldl f st).1 k = true → hasKey st.1 k = true ∨ C) ∧
    (hasKey st.1 k = true → hasKey (l.foldl f st).1 k = true) ∧
    ((st.1.map Prod.fst).Nodup → ((l.foldl f st).1.map Prod.fst).Nodup) := by
  apply foldl_rec (fun st' : AcqMap × Nat =>
    (hasKey st'.1 k = true → hasKey st.1 k = true ∨ C) ∧
    (hasKey st.1 k = true → hasKey st'.1 k = true) ∧
    ((st.1.map Prod.fst).Nodup → (st'.1.map Prod.fst).Nodup)) f l st
    ⟨fun h => Or.inl h, id, id⟩
  intro a b hb ha
  obtain ⟨hs1, hs2, hs3⟩ := hstep a b hb
  refine ⟨?_, ?_, ?_⟩
  · intro h
    rcases hs1 h with h' | h'
    · exact ha.1 h'
    · exact Or.inr h'
  · intro h
    exact hs2 (ha.2.1 h)
  · intro h
    exact hs3 (ha.2.2 h)

theorem applyTransaction_keys (rp : List String) (rid : Nat) (m : AcqMap)
    (t : SleeperTransaction) (k : String) :
    (hasKey (applyTransaction rp rid m t) k = true → hasKey m k = true ∨ k ∈ rp) ∧
    (hasKey m k = true → hasKey (applyTransaction rp rid m t) k = true) ∧
    ((m.map Prod.fst).Nodup → ((applyTransaction rp rid m t).map Prod.fst).Nodup) := by
  unfold applyTransaction
  split
  · apply foldl_keys
    intro m' b _
    obtain ⟨h1, h2, h3⟩ := applyTransactionAdd_keys rp t m' b.1 k
    exact ⟨h1, h2, h3⟩
  · exact ⟨fun h => Or.inl h, id, id⟩

theorem applyDraft_keys (ir : Bool) (fl : LineageFlags) (userId : String)
    (meta : LeagueHistory) (teams : Nat) (st : AcqMap × Nat) (dd : DraftData)
    (k : String) :
    (hasKey (applyDraft ir fl userId meta teams st dd).1 k = true →
      hasKey st.1 k = true ∨
        ∃ pk, pk ∈ dd.picks ∧ pk.picked_by = userId ∧ pk.player_id = k) ∧
    (hasKey st.1 k = true → hasKey (applyDraft ir fl userId meta teams st dd).1 k = true) ∧
    ((st.1.map Prod.fst).Nodup →
      ((applyDraft ir fl userId meta teams st dd).1.map Prod.fst).Nodup) := by
  simp only [applyDraft]
  split
  · exact ⟨fun h => Or.inl h, id, id⟩
  · apply foldl_keys_pair
    intro st' b hb
    obtain ⟨h1, h2, h3⟩ := applyDraftPickStep_keys
      (draftTypeFor ir fl meta dd.draftInfo) meta teams st' b k
    refine ⟨?_, h2, h3⟩
    intro h
    rcases h1 h with h' | h'
    · exact Or.inl h'
    · right
      have hmem := List.mem_filter.1 hb
      refine ⟨b, hmem.1, ?_, h'.symm⟩
      have := hmem.2
      simpa using this

theorem processSeason_keys (ir : Bool) (fl : LineageFlags) (userId : String)
    (roster : SleeperRoster) (ld : Option SleeperLeague) (lhd : List LeagueHistory)
    (st : AcqMap × Nat) (hd : SeasonData) (k : String) :
    (hasKey (processSeason ir fl userId roster ld lhd st hd).1 k = true →
      hasKey st.1 k = true ∨ k ∈ roster.players ∨
        ∃ dd, dd ∈ hd.drafts ∧ ∃ pk, pk ∈ dd.picks ∧
          pk.picked_by = userId ∧ pk.player_id = k) ∧
    (hasKey st.1 k = true →
      hasKey (processSeason ir fl userId roster ld lhd st hd).1 k = true) ∧
    ((st.1.map Prod.fst).Nodup →
      ((processSeason ir fl userId roster ld lhd st hd).1.map Prod.fst).Nodup) := by
  unfold processSeason
  cases hro : hd.roster with
  | none => exact ⟨fun h => Or.inl h, id, id⟩
  | some ur =>
    cases hfind : lhd.find? (fun lh => lh.league_id == hd.leagueId && lh.season == hd.season) with
    | none => exact ⟨fun h => Or.inl h, id, id⟩
    | some meta =>
      dsimp only
      have hdr := foldl_keys_pair
        (∃ dd, dd ∈ hd.drafts ∧ ∃ pk, pk ∈ dd.picks ∧
          pk.picked_by = userId ∧ pk.player_id = k)
        (applyDraft ir fl userId meta (teamsInLeague ld)) (sortDraftsById hd.drafts) st k
        (by
          intro st' b hb
          obtain ⟨h1, h2, h3⟩ := applyDraft_keys ir fl userId meta (teamsInLeague ld) st' b k
          refine ⟨?_, h2, h3⟩
          intro h
          rcases h1 h with h' | ⟨pk, hpk, hpb, hpid⟩
          · exact Or.inl h'
          · exact Or.inr ⟨b, (mem_sortDraftsById b hd.drafts).1 hb, pk, hpk, hpb, hpid⟩)
      have htr := foldl_keys (k ∈ roster.players)
        (applyTransaction roster.players ur.roster_id) hd.transactions
        ((sortDraftsById hd.drafts).foldl (applyDraft ir fl userId meta (teamsInLeague ld)) st).1 k
        (by
          intro m' b _
          obtain ⟨h1, h2, h3⟩ := applyTransaction_keys roster.players ur.roster_id m' b k
          exact ⟨h1, h2, h3⟩)
      refine ⟨?_, ?_, ?_⟩
      · intro h
        rcases htr.1 h with h' | h'
        · rcases hdr.1 h' with h'' | h''
          · exact Or.inl h''
          · exact Or.inr (Or.inr h'')
        · exact Or.inr (Or.inl h')
      · intro h
        exact htr.2.1 (hdr.2.1 h)
      · intro h
        exact htr.2.2 (hdr.2.2 h)

theorem hasKey_applyFallback (m : AcqMap) (k : String) :
    hasKey (applyFallback m) k = hasKey m k := by
  by_cases h : hasKey m k = true
  · have hf : hasKey (applyFallback m) k = true :=
      (hasKey_iff_mem _ _).2 (by rw [keys_applyFallback]; exact (hasKey_iff_mem _ _).1 h)
    rw [hf, h]
  · have hm : hasKey m k = false := by
      cases hmk : hasKey m k with
      | false => rfl
      | true => exact absurd hmk h
    rw [hm]
    cases hh : hasKey (applyFallback m) k with
    | false => rfl
    | true =>
      have : hasKey m k = true :=
        (hasKey_iff_mem _ _).2 (by rw [← keys_applyFallback]; exact (hasKey_iff_mem _ _).1 hh)
      rw [this] at hm
      simp at hm

/-! ## Claim C2: the key set of the returned mapping -/

/-- C2 (amended): the returned mapping has pairwise-distinct keys; every
player of the current roster has (exactly) one record; and every key of the
mapping is either a current roster player or the `player_id` of some pick
made by the user in an aggregated season's draft.  Transaction events only
ever touch current roster players, but draft-pick events can add keys for
user-drafted players who are no longer on the roster (see the
counterexample), so the key set is NOT always exactly the roster. -/
theorem claim_c2_keyset_amended (ld : Option SleeperLeague) (lhd : List LeagueHistory)
    (allData : List SeasonData) (userId : String) (roster : SleeperRoster) :
    (((getPlayerAcquisitionsPure ld lhd allData userId roster).map Prod.fst).Nodup) ∧
    (∀ p, p ∈ roster.players →
      hasKey (getPlayerAcquisitionsPure ld lhd allData userId roster) p = true) ∧
    (∀ k, hasKey (getPlayerAcquisitionsPure ld lhd allData userId roster) k = true →
      k ∈ roster.players ∨
        ∃ sd, sd ∈ allData ∧ ∃ dd, dd ∈ sd.drafts ∧ ∃ pk, pk ∈ dd.picks ∧
          pk.picked_by = userId ∧ pk.player_id = k) := by
  simp only [getPlayerAcquisitionsPure]
  by_cases hlen : lhd.length = 0
  · rw [if_pos hlen]
    refine ⟨keysNodup_init roster, ?_, ?_⟩
    · intro p hp
      exact (hasKey_init roster p).2 hp
    · intro k h
      exact Or.inl ((hasKey_init roster k).1 h)
  · rw [if_neg hlen]
    have htrip : ∀ k : String,
        (hasKey (fuseAllSeasons (settingsType ld == some 0)
            (computeLineageFlags userId lhd allData) userId roster ld lhd allData
            (initAcquisitions roster)).1 k = true →
          hasKey (initAcquisitions roster) k = true ∨
            (k ∈ roster.players ∨
              ∃ sd, sd ∈ allData ∧ ∃ dd, dd ∈ sd.drafts ∧ ∃ pk, pk ∈ dd.picks ∧
                pk.picked_by = userId ∧ pk.player_id = k)) ∧
        (hasKey (initAcquisitions roster) k = true →
          hasKey (fuseAllSeasons (settingsType ld == some 0)
            (computeLineageFlags userId lhd allData) userId roster ld lhd allData
            (initAcquisitions roster)).1 k = true) ∧
        (((initAcquisitions roster).map Prod.fst).Nodup →
          ((fuseAllSeasons (settingsType ld == some 0)
            (computeLineageFlags userId lhd allData) userId roster ld lhd allData
            (initAcquisitions roster)).1.map Prod.fst).Nodup) := by
      intro k
      unfold fuseAllSeasons
      apply foldl_keys_pair
      intro st' b hb
      obtain ⟨h1, h2, h3⟩ := processSeason_keys (settingsType ld == some 0)
        (computeLineageFlags userId lhd allData) userId roster ld lhd st' b k
      refine ⟨?_, h2, h3⟩
      intro h
      rcases h1 h with h' | h' | ⟨dd, hdd, pk, hpk, hpb, hpid⟩
      · exact Or.inl h'
      · exact Or.inr (Or.inl h')
      · exact Or.inr (Or.inr ⟨b, hb, dd, hdd, pk, hpk, hpb, hpid⟩)
    by_cases hfb : fallbackCondition (computeLineageFlags userId lhd allData)
        (fuseAllSeasons (settingsType ld == some 0)
          (computeLineageFlags userId lhd allData) userId roster ld lhd allData
          (initAcquisitions roster)).2 = true
    · rw [if_pos hfb]
      refine ⟨?_, ?_, ?_⟩
      · rw [keys_applyFallback]
        exact (htrip "").2.2 (keysNodup_init roster)
      · intro p hp
        rw [hasKey_applyFallback]
        exact (htrip p).2.1 ((hasKey_init roster p).2 hp)
      · intro k h
        rw [hasKey_applyFallback] at h
        rcases (htrip k).1 h with h' | h'
        · exact Or.inl ((hasKey_init roster k).1 h')
        · exact h'
    · rw [if_neg hfb]
      refine ⟨?_, ?_, ?_⟩
      · exact (htrip "").2.2 (keysNodup_init roster)
      · intro p hp
        exact (htrip p).2.1 ((hasKey_init roster p).2 hp)
      · intro k h
        rcases (htrip k).1 h with h' | h'
        · exact Or.inl ((hasKey_init roster k).1 h')
        · exact h'

def c2Roster : SleeperRoster := ⟨1, "u", []⟩

def c2Lhd : List LeagueHistory := [⟨"L", none, "2023"⟩]

/-- A single historical season whose draft contains a user pick of player
"X", who is NOT on the current roster. -/
def c2Season : SeasonData :=
  ⟨"L", "2023", some ⟨1, "u", []⟩, [⟨⟨"5", none, none⟩, [⟨"X", "u", 1, 1⟩]⟩], []⟩

/-- Counterexample to C2 as stated: the draft-pick guard
`!acquisitions[p]?.timestamp` is true for an ABSENT key, so the draft event
creates a record for player "X" even though "X" is not in the roster's
players list - the returned key set is strictly larger than the roster. -/
theorem claim_c2_counterexample :
    hasKey (getPlayerAcquisitionsPure none c2Lhd [c2Season] "u" c2Roster) "X" = true ∧
    "X" ∉ c2Roster.players :=
  ⟨by decide, by decide⟩

/-- Witness for the amended C2: a concrete roster player has a record. -/
theorem claim_c2_witness :
    "A" ∈ (SleeperRoster.mk 1 "u" ["A"]).players ∧
    hasKey (getPlayerAcquisitionsPure none c2Lhd [] "u" ⟨1, "u", ["A"]⟩) "A" = true :=
  ⟨by decide,
    (claim_c2_keyset_amended none c2Lhd [] "u" ⟨1, "u", ["A"]⟩).2.1 "A" (by decide)⟩
